import Mathlib

/-!
# Colony simulation engine (`src/CODE/main.cpp`)

A shallow embedding of the colony registry (`Meadow`), the per-colony tick and
resource operations (`Colony`) and the insect decorator chain, followed by the
properties proved about them.

Conventions of the embedding.

* A C++ `int` is a Lean `Int` lying in `[INT_MIN, INT_MAX]` (`IsInt`); the
  result of `+=` / `-=` is reduced by `wrapInt` to the 32-bit two's-complement
  value.  Where a result stays in range `wrapInt` is the identity.
* `std::vector<std::shared_ptr<T>>` is a `List T`: every element is created by
  `make_shared` at the point where it is pushed and is never aliased.
* Every statement writing to `std::cout` is one constructor of `Out`; an
  operation returns the new state together with the list of `Out` it wrote, in
  order.  `Out.render` gives the text of each of them.
-/

namespace ColonySim

/-! ## Machine integers -/

/-- Smallest value of a 32-bit `int`. -/
def INT_MIN : Int := -2147483648

/-- Largest value of a 32-bit `int`. -/
def INT_MAX : Int := 2147483647

/-- The value is representable as a 32-bit `int`. -/
def IsInt (v : Int) : Prop := INT_MIN ≤ v ∧ v ≤ INT_MAX

instance (v : Int) : Decidable (IsInt v) := by
  unfold IsInt; exact inferInstance

/-- Reduction of a mathematical result to the 32-bit two's-complement `int`. -/
def wrapInt (v : Int) : Int := (v + 2147483648) % 4294967296 - 2147483648

/-- Conversion of an `int` to `size_t` (64-bit unsigned), as done by the
comparison `colony_id < colony_list.size()` and by `operator[]`. -/
def toSizeT (v : Int) : Nat := (v % 18446744073709551616).toNat

/-! ## Data model -/

/-- A room of a colony (`class Room`). -/
structure Room where
  name : String
  capacity : Int
  deriving DecidableEq, Repr

/-- The insect decorator chain (`BasicInsect`, `PowerfulInsect`,
`ResourcefulInsect`); a wrapper holds its `base_insect`. -/
inductive Insect where
  | BasicInsect : Insect
  | PowerfulInsect (base_insect : Insect) : Insect
  | ResourcefulInsect (base_insect : Insect) : Insect
  deriving DecidableEq, Repr

/-- One write to `std::cout`. -/
inductive Out where
  /-- Line 49: `Food stock increased by <quantity>. Total: <food_stock>`. -/
  | foodIncreased (quantity total : Int)
  /-- Line 51: `Unknown resource type: <resource_type>`. -/
  | unknownResource (resource_type : String)
  /-- Line 60: the queen has perished. -/
  | queenPerished
  /-- Lines 66-71: the six lines of `display_details`. -/
  | details (colony_type : String) (pos_x pos_y food_stock : Int)
      (queen_alive : Bool) (rooms insects : Nat)
  /-- Line 93: `Colony of type <type> created at (<x>, <y>).`. -/
  | colonyCreated (type : String) (pos_x pos_y : Int)
  /-- Lines 100 and 117: `Invalid colony ID.`. -/
  | invalidColonyId
  /-- Line 106: `Processing Tick: <i + 1>`. -/
  | processingTick (number : Int)
  /-- Line 128: `Basic Insect Attributes`. -/
  | basicAttributes
  /-- Lines 140 and 152: ` + <label>`. -/
  | plusAttribute (label : String)
  deriving DecidableEq, Repr

/-- The text written for one `Out`. -/
def Out.render : Out → String
  | .foodIncreased q t =>
      "Food stock increased by " ++ toString q ++ ". Total: " ++ toString t ++ "\n"
  | .unknownResource k => "Unknown resource type: " ++ k ++ "\n"
  | .queenPerished => "The queen of this colony has perished due to starvation.\n"
  | .details ty x y f q r i =>
      "Type: " ++ ty ++ "\n" ++
      "Location: (" ++ toString x ++ ", " ++ toString y ++ ")\n" ++
      "Food Stock: " ++ toString f ++ "\n" ++
      "Queen Alive: " ++ (if q then "Yes" else "No") ++ "\n" ++
      "Rooms: " ++ toString r ++ "\n" ++
      "Insects: " ++ toString i ++ "\n"
  | .colonyCreated ty x y =>
      "Colony of type " ++ ty ++ " created at (" ++ toString x ++ ", " ++ toString y ++ ").\n"
  | .invalidColonyId => "Invalid colony ID.\n"
  | .processingTick n => "Processing Tick: " ++ toString n ++ "\n"
  | .basicAttributes => "Basic Insect Attributes\n"
  | .plusAttribute l => " + " ++ l ++ "\n"

/-- The fields of `class Colony`. -/
structure Colony where
  colony_type : String
  pos_x : Int
  pos_y : Int
  food_stock : Int
  queen_alive : Bool
  rooms : List Room
  insect_list : List Insect
  deriving DecidableEq, Repr

namespace Colony

/-- The constructor `Colony(type, x, y)`: food 100, queen alive, no rooms and
no insects. -/
def new (type : String) (x y : Int) : Colony :=
  { colony_type := type, pos_x := x, pos_y := y, food_stock := 100,
    queen_alive := true, rooms := [], insect_list := [] }

/-- Method `Colony::add_room`. -/
def add_room (c : Colony) (name : String) (capacity : Int) : Colony :=
  { c with rooms := c.rooms ++ [{ name := name, capacity := capacity }] }

/-- Method `Colony::add_insect`. -/
def add_insect (c : Colony) (insect : Insect) : Colony :=
  { c with insect_list := c.insect_list ++ [insect] }

/-- Method `Colony::receive_resources`. -/
def receive_resources (c : Colony) (resource_type : String) (quantity : Int) :
    Colony × List Out :=
  if resource_type = "food" then
    let c1 := { c with food_stock := wrapInt (c.food_stock + quantity) }
    (c1, [Out.foodIncreased quantity c1.food_stock])
  else
    (c, [Out.unknownResource resource_type])

/-- Method `Colony::process_tick`. -/
def process_tick (c : Colony) : Colony × List Out :=
  if c.queen_alive then
    let c1 := { c with food_stock := wrapInt (c.food_stock - 5) }
    if c1.food_stock ≤ 0 then
      ({ c1 with queen_alive := false }, [Out.queenPerished])
    else
      (c1, [])
  else
    (c, [])

/-- Method `Colony::display_details`: writes the snapshot, changes nothing. -/
def display_details (c : Colony) : Colony × List Out :=
  (c, [Out.details c.colony_type c.pos_x c.pos_y c.food_stock c.queen_alive
        c.rooms.length c.insect_list.length])

end Colony

/-- The process-wide registry (`class Meadow`): its only field is
`colony_list`. -/
structure Meadow where
  colony_list : List Colony
  deriving DecidableEq, Repr

namespace Meadow

/-- The constructor `Meadow() {}`: an empty registry. -/
def empty : Meadow := { colony_list := [] }

/-- Method `Meadow::spawn_colony` (called `create_colony` by the specification). -/
def spawn_colony (m : Meadow) (type : String) (pos_x pos_y : Int) : Meadow × List Out :=
  let colony := Colony.new type pos_x pos_y
  ({ colony_list := m.colony_list ++ [colony] }, [Out.colonyCreated type pos_x pos_y])

/-- Method `Meadow::allocate_resources`.  The right operand of `&&` is evaluated on
`size_t`, and so is the index of `operator[]`. -/
def allocate_resources (m : Meadow) (colony_id : Int) (resource_type : String)
    (quantity : Int) : Meadow × List Out :=
  if h : colony_id ≥ 0 ∧ toSizeT colony_id < m.colony_list.length then
    let r := (m.colony_list.get ⟨toSizeT colony_id, h.2⟩).receive_resources
      resource_type quantity
    ({ colony_list := m.colony_list.set (toSizeT colony_id) r.1 }, r.2)
  else
    (m, [Out.invalidColonyId])

/-- The inner loop of `execute_ticks`: `for (auto& colony : colony_list)
colony->process_tick();`. -/
def tick_colonies : List Colony → List Colony × List Out
  | [] => ([], [])
  | colony :: rest =>
      let r := colony.process_tick
      let rs := tick_colonies rest
      (r.1 :: rs.1, r.2 ++ rs.2)

/-- The outer loop of `execute_ticks` with `n` iterations left and loop
counter `i` (`i + 1` cannot overflow, since `i < tick_count`). -/
def tick_rounds : Nat → Int → Meadow → Meadow × List Out
  | 0, _, m => (m, [])
  | n + 1, i, m =>
      let r := tick_colonies m.colony_list
      let rs := tick_rounds n (i + 1) { colony_list := r.1 }
      (rs.1, Out.processingTick (i + 1) :: r.2 ++ rs.2)

/-- Method `Meadow::execute_ticks`: `for (int i = 0; i < tick_count; ++i)` runs
`tick_count` iterations when that is positive and none otherwise. -/
def execute_ticks (m : Meadow) (tick_count : Int) : Meadow × List Out :=
  tick_rounds tick_count.toNat 0 m

/-- Method `Meadow::display_summary`. -/
def display_summary (m : Meadow) (colony_id : Int) : Meadow × List Out :=
  if h : colony_id ≥ 0 ∧ toSizeT colony_id < m.colony_list.length then
    let r := (m.colony_list.get ⟨toSizeT colony_id, h.2⟩).display_details
    ({ colony_list := m.colony_list.set (toSizeT colony_id) r.1 }, r.2)
  else
    (m, [Out.invalidColonyId])

/-! ### Instrumented tick loop

The same two loops, recording which colony index is ticked in which round
(the round number is the one written by line 106). -/

/-- Inner loop of `execute_ticks` from colony index `idx` on, recording one
`(round, index)` pair for each call of `process_tick`. -/
def tick_colonies_traced (round : Int) : Nat → List Colony → List Colony × List (Int × Nat)
  | _, [] => ([], [])
  | idx, colony :: rest =>
      let rs := tick_colonies_traced round (idx + 1) rest
      (colony.process_tick.1 :: rs.1, (round, idx) :: rs.2)

/-- Outer loop of `execute_ticks`, recording the calls of `process_tick`. -/
def tick_rounds_traced : Nat → Int → Meadow → Meadow × List (Int × Nat)
  | 0, _, m => (m, [])
  | n + 1, i, m =>
      let r := tick_colonies_traced (i + 1) 0 m.colony_list
      let rs := tick_rounds_traced n (i + 1) { colony_list := r.1 }
      (rs.1, r.2 ++ rs.2)

/-- Method `Meadow::execute_ticks`, recording the calls of `process_tick`. -/
def execute_ticks_traced (m : Meadow) (tick_count : Int) : Meadow × List (Int × Nat) :=
  tick_rounds_traced tick_count.toNat 0 m

end Meadow

/-! ## Engine operations -/

/-- One call into the registry, as issued by the command loop of `main`. -/
inductive EngineOp where
  | create_colony (type : String) (pos_x pos_y : Int)
  | allocate_resources (colony_id : Int) (resource_type : String) (quantity : Int)
  | execute_ticks (tick_count : Int)
  | display_summary (colony_id : Int)
  deriving DecidableEq, Repr

/-- Perform one engine operation. -/
def Meadow.apply (m : Meadow) : EngineOp → Meadow × List Out
  | .create_colony type x y => m.spawn_colony type x y
  | .allocate_resources id kind amount => m.allocate_resources id kind amount
  | .execute_ticks n => m.execute_ticks n
  | .display_summary id => m.display_summary id

/-- Perform a finite sequence of engine operations, left to right. -/
def Meadow.run (m : Meadow) : List EngineOp → Meadow × List Out
  | [] => (m, [])
  | op :: ops =>
      let r := m.apply op
      let rs := Meadow.run r.1 ops
      (rs.1, r.2 ++ rs.2)

/-- A sequence of `create_colony` calls, given by their arguments
`(type, x, y)`, performed from registry `m`. -/
def Meadow.spawn_all (m : Meadow) : List (String × Int × Int) → Meadow
  | [] => m
  | a :: rest => Meadow.spawn_all (m.spawn_colony a.1 a.2.1 a.2.2).1 rest

/-! ## Insects -/

namespace Insect

/-- The virtual method `show_attributes` of the three insect classes: a
wrapper first calls its `base_insect`, then writes its own line. -/
def show_attributes : Insect → List Out
  | BasicInsect => [Out.basicAttributes]
  | PowerfulInsect base_insect => show_attributes base_insect ++ [Out.plusAttribute "Powerful"]
  | ResourcefulInsect base_insect =>
      show_attributes base_insect ++ [Out.plusAttribute "Resourceful"]

end Insect

/-- The trait label written by one line of `show_attributes`: `Basic` for the
line of `BasicInsect`, the word after ` + ` for a wrapper's line. -/
def Out.label : Out → Option String
  | .basicAttributes => some "Basic"
  | .plusAttribute l => some l
  | _ => none

/-- The label sequence of an insect (`describe()` in the specification), read
off what `show_attributes` writes. -/
def Insect.describe (i : Insect) : List (Option String) :=
  i.show_attributes.map Out.label

/-- The enumeration `InsectFactory::InsectCategory`. -/
inductive InsectCategory where
  | Worker
  | Fighter
  deriving DecidableEq, Repr

/-- Method `InsectFactory::generate_insect`; `none` is the `nullptr` of the last
`return`. -/
def generate_insect (category : InsectCategory) : Option Insect :=
  if category = InsectCategory.Worker then
    some Insect.BasicInsect
  else if category = InsectCategory.Fighter then
    some (Insect.PowerfulInsect Insect.BasicInsect)
  else
    none

/-- The two wrapper classes. -/
inductive Wrapper where
  | Powerful
  | Resourceful
  deriving DecidableEq, Repr

/-- The label a wrapper class writes after ` + `. -/
def Wrapper.label : Wrapper → String
  | .Powerful => "Powerful"
  | .Resourceful => "Resourceful"

/-- Constructing a wrapper around an insect (`PowerfulInsect(insect)`,
`ResourcefulInsect(insect)`). -/
def Wrapper.wrap : Wrapper → Insect → Insect
  | .Powerful, i => Insect.PowerfulInsect i
  | .Resourceful, i => Insect.ResourcefulInsect i

/-- Wrap `base` successively in the wrappers of `ws`, the first one innermost. -/
def wrapAll (ws : List Wrapper) (base : Insect) : Insect :=
  ws.foldl (fun i w => w.wrap i) base

/-- The trace of `n` rounds over `k` colonies whose loop counter starts at `i`. -/
def roundRobin (n k : Nat) (i : Int) : List (Int × Nat) :=
  (List.range n).flatMap (fun r : Nat => (List.range k).map (fun j : Nat => (i + (r : Int) + 1, j)))

/-- The registry of the scenario: one colony `("Aggressive", 0, 0)` created in
the empty registry and fed 50 units of food. -/
def scenarioFed : Meadow :=
  ((Meadow.empty.spawn_colony "Aggressive" 0 0).1.allocate_resources 0 "food" 50).1

/-! ## Iterated ticks, the tick command, feeding within range -/

/-- The colony after `n` successive calls of `process_tick`. -/
def Colony.process_ticks (c : Colony) : Nat → Colony
  | 0 => c
  | n + 1 => Colony.process_ticks c.process_tick.1 n

/-- The quotient `f / 5` rounded up, for `f > 0`. -/
def ceilDiv5 (f : Int) : Int := (f + 4) / 5

/-- Colony by colony to completion: each colony of the registry gets its `n`
calls of `process_tick` on its own, in registry order. -/
def Meadow.ticks_per_colony (m : Meadow) (n : Nat) : Meadow :=
  { colony_list := m.colony_list.map (fun c => c.process_ticks n) }

/-- The `tick` branch of the command loop of `main` (lines 198-201), applied
to the parsed `amount`: `amount = amount > 0 ? amount : 1;` and then
`meadow->execute_ticks(amount);`. -/
def main_tick (m : Meadow) (amount : Int) : Meadow × List Out :=
  let amount := if amount > 0 then amount else 1
  m.execute_ticks amount

/-- A colony whose queen is alive has a positive food stock (within the range
of `int`). -/
def Colony.AliveFed (c : Colony) : Prop :=
  c.queen_alive = true → 0 < c.food_stock ∧ c.food_stock ≤ INT_MAX

/-- The side condition of one operation in a run that feeds within range: an
allocated amount is non-negative, and food given to a colony whose queen is
alive does not take its food stock above `INT_MAX`.  The other operations
have no side condition. -/
def Meadow.admits (m : Meadow) : EngineOp → Bool
  | .allocate_resources colony_id resource_type quantity =>
      decide (0 ≤ quantity) &&
        (decide (colony_id < 0) ||
          match m.colony_list[toSizeT colony_id]? with
          | some c =>
              !c.queen_alive || decide (resource_type ≠ "food") ||
                decide (c.food_stock + quantity ≤ INT_MAX)
          | none => true)
  | _ => true

/-- Every operation of the sequence, performed from `m` on, meets its side
condition in the registry it is applied to. -/
def Meadow.admitsAll (m : Meadow) : List EngineOp → Bool
  | [] => true
  | op :: ops => m.admits op && Meadow.admitsAll (m.apply op).1 ops

/-! ## Facts about machine integers -/

theorem wrapInt_of_isInt {v : Int} (h : IsInt v) : wrapInt v = v := by
  unfold IsInt INT_MIN INT_MAX at h
  unfold wrapInt
  omega

theorem isInt_wrapInt (v : Int) : IsInt (wrapInt v) := by
  unfold IsInt INT_MIN INT_MAX wrapInt
  omega

/-! ## Colony operations -/

theorem process_tick_dead (c : Colony) (h : c.queen_alive = false) :
    c.process_tick = (c, []) := by
  simp [Colony.process_tick, h]

theorem process_tick_queen_stays_dead (c : Colony) (h : c.queen_alive = false) :
    c.process_tick.1.queen_alive = false := by
  rw [process_tick_dead c h]; exact h

theorem receive_resources_queen (c : Colony) (kind : String) (q : Int) :
    (c.receive_resources kind q).1.queen_alive = c.queen_alive := by
  unfold Colony.receive_resources
  split <;> rfl

theorem receive_resources_food (c : Colony) (q : Int) :
    c.receive_resources "food" q =
      ({ c with food_stock := wrapInt (c.food_stock + q) },
        [Out.foodIncreased q (wrapInt (c.food_stock + q))]) := by
  simp [Colony.receive_resources]

theorem receive_resources_other (c : Colony) (kind : String) (q : Int) (h : kind ≠ "food") :
    c.receive_resources kind q = (c, [Out.unknownResource kind]) := by
  simp [Colony.receive_resources, h]

/-- C1: `process_tick` on a colony whose queen is alive and whose food stock
`f` exceeds 5 keeps the queen alive and leaves `f - 5`; with `0 < f <= 5` the
queen is dead afterwards; on a colony whose queen is dead it returns the
colony unchanged in every field (and writes nothing). -/
theorem C1_process_tick_contract (c : Colony) (hf : IsInt c.food_stock) :
    (c.queen_alive = true → 5 < c.food_stock →
        c.process_tick.1.queen_alive = true ∧
        c.process_tick.1.food_stock = c.food_stock - 5) ∧
    (c.queen_alive = true → 0 < c.food_stock → c.food_stock ≤ 5 →
        c.process_tick.1.queen_alive = false) ∧
    (c.queen_alive = false → c.process_tick = (c, [])) := by
  have hr := hf
  unfold IsInt INT_MIN INT_MAX at hr
  refine ⟨?_, ?_, process_tick_dead c⟩
  · intro ha h5
    have hw : wrapInt (c.food_stock - 5) = c.food_stock - 5 := by
      unfold wrapInt; omega
    have hpos : ¬ (c.food_stock - 5 ≤ 0) := by omega
    simp [Colony.process_tick, ha, hw, hpos]
  · intro ha h0 h5
    have hw : wrapInt (c.food_stock - 5) = c.food_stock - 5 := by
      unfold wrapInt; omega
    have hle : c.food_stock - 5 ≤ 0 := by omega
    simp [Colony.process_tick, ha, hw, hle]

/-- Witness of C1: a fresh colony (food 100) goes to food 95 with the queen
alive, a colony with food 5 loses its queen, a collapsed colony is returned
as it is. -/
theorem C1_process_tick_contract_witness :
    ((Colony.new "Aggressive" 0 0).process_tick.1.queen_alive = true ∧
      (Colony.new "Aggressive" 0 0).process_tick.1.food_stock = 100 - 5) ∧
    ({ Colony.new "Aggressive" 0 0 with food_stock := 5 } : Colony).process_tick.1.queen_alive
      = false ∧
    ({ Colony.new "Aggressive" 0 0 with queen_alive := false } : Colony).process_tick =
      ({ Colony.new "Aggressive" 0 0 with queen_alive := false }, []) :=
  ⟨(C1_process_tick_contract (Colony.new "Aggressive" 0 0) (by decide)).1 rfl (by decide),
   (C1_process_tick_contract { Colony.new "Aggressive" 0 0 with food_stock := 5 }
      (by decide)).2.1 rfl (by decide) (by decide),
   (C1_process_tick_contract { Colony.new "Aggressive" 0 0 with queen_alive := false }
      (by decide)).2.2 rfl⟩

/-- C2, as stated, fails: after `create_colony("Aggressive", 0, 0)` and
`allocate_resources(0, "food", 2147483547)` the colony has a live queen and
food stock `INT_MAX`; `receive_resources("food", 1)` then does not leave
`INT_MAX + 1` (which no `int` field can hold) but `INT_MIN`. -/
theorem C2_receive_resources_counterexample :
    (Meadow.run Meadow.empty
        [EngineOp.create_colony "Aggressive" 0 0,
         EngineOp.allocate_resources 0 "food" 2147483547]).1.colony_list =
      [{ Colony.new "Aggressive" 0 0 with food_stock := 2147483647 }] ∧
    ({ Colony.new "Aggressive" 0 0 with food_stock := 2147483647 } : Colony).queen_alive
      = true ∧
    (({ Colony.new "Aggressive" 0 0 with food_stock := 2147483647 } : Colony).receive_resources
        "food" 1).1.food_stock = -2147483648 ∧
    ¬ (({ Colony.new "Aggressive" 0 0 with food_stock := 2147483647 } :
        Colony).receive_resources "food" 1).1.food_stock = 2147483647 + 1 := by
  decide

/-- C2 (amended): for every colony, every quantity `q` and every kind:
`receive_resources("food", q)` sets the food stock to exactly `food_stock + q`
whenever that sum is representable as an `int`, changes no other field and
writes the increase with the new total; with any kind other than `"food"`
(the comparison is exact and case-sensitive, so `"Food"` is unknown) the colony
is unchanged and the unknown resource kind is reported. -/
theorem C2_receive_resources_contract (c : Colony) (q : Int) (kind : String) :
    (IsInt (c.food_stock + q) →
        c.receive_resources "food" q =
          ({ c with food_stock := c.food_stock + q },
            [Out.foodIncreased q (c.food_stock + q)])) ∧
    (kind ≠ "food" → c.receive_resources kind q = (c, [Out.unknownResource kind])) ∧
    c.receive_resources "Food" q = (c, [Out.unknownResource "Food"]) := by
  refine ⟨?_, receive_resources_other c kind q, receive_resources_other c "Food" q (by decide)⟩
  intro h
  rw [receive_resources_food, wrapInt_of_isInt h]

/-- Witness of C2 (amended): feeding 50 to a fresh colony gives food 150;
feeding it `"water"` changes nothing and reports the unknown kind. -/
theorem C2_receive_resources_contract_witness :
    (Colony.new "Aggressive" 0 0).receive_resources "food" 50 =
      ({ Colony.new "Aggressive" 0 0 with food_stock := 100 + 50 },
        [Out.foodIncreased 50 (100 + 50)]) ∧
    (Colony.new "Aggressive" 0 0).receive_resources "water" 50 =
      (Colony.new "Aggressive" 0 0, [Out.unknownResource "water"]) :=
  ⟨(C2_receive_resources_contract (Colony.new "Aggressive" 0 0) 50 "water").1 (by decide),
   (C2_receive_resources_contract (Colony.new "Aggressive" 0 0) 50 "water").2.1 (by decide)⟩

/-- C3, as stated, fails: a fresh colony collapses with food stock 0 after 20
ticks, and `allocate_resources(0, "food", 10)` then raises the food stock of
the collapsed colony from 0 to 10. -/
theorem C3_collapsed_frozen_counterexample :
    (Meadow.run Meadow.empty
        [EngineOp.create_colony "Aggressive" 0 0,
         EngineOp.execute_ticks 20]).1.colony_list =
      [{ Colony.new "Aggressive" 0 0 with food_stock := 0, queen_alive := false }] ∧
    (({ Colony.new "Aggressive" 0 0 with food_stock := 0, queen_alive := false } :
        Colony).receive_resources "food" 10).1.food_stock = 10 ∧
    ¬ (({ Colony.new "Aggressive" 0 0 with food_stock := 0, queen_alive := false } :
        Colony).receive_resources "food" 10).1.food_stock =
      ({ Colony.new "Aggressive" 0 0 with food_stock := 0, queen_alive := false } :
        Colony).food_stock := by
  decide

/-- C3 (amended): for every colony whose queen is dead, `process_tick` is
accepted and leaves the colony unchanged; `receive_resources` is accepted for
every kind and quantity and leaves the queen dead; with a kind other than
`"food"` it leaves the food stock (and the whole colony) unchanged, but with
`"food"` it still adds the quantity to the food stock, exactly so when the sum
is representable as an `int`. -/
theorem C3_collapsed_terminal (c : Colony) (hq : c.queen_alive = false) :
    c.process_tick = (c, []) ∧
    (∀ (kind : String) (q : Int), (c.receive_resources kind q).1.queen_alive = false) ∧
    (∀ (kind : String) (q : Int), kind ≠ "food" → (c.receive_resources kind q).1 = c) ∧
    (∀ q : Int, (c.receive_resources "food" q).1 =
        { c with food_stock := wrapInt (c.food_stock + q) }) ∧
    (∀ q : Int, IsInt (c.food_stock + q) →
        (c.receive_resources "food" q).1.food_stock = c.food_stock + q) := by
  refine ⟨process_tick_dead c hq, ?_, ?_, ?_, ?_⟩
  · intro kind q
    rw [receive_resources_queen]; exact hq
  · intro kind q hk
    rw [receive_resources_other c kind q hk]
  · intro q
    rw [receive_resources_food]
  · intro q h
    rw [receive_resources_food, wrapInt_of_isInt h]

/-- Witness of C3 (amended), at the collapsed colony with food stock 0. -/
theorem C3_collapsed_terminal_witness :
    (({ Colony.new "Aggressive" 0 0 with food_stock := 0, queen_alive := false } :
        Colony).process_tick =
      ({ Colony.new "Aggressive" 0 0 with food_stock := 0, queen_alive := false }, [])) ∧
    (({ Colony.new "Aggressive" 0 0 with food_stock := 0, queen_alive := false } :
        Colony).receive_resources "food" 10).1.food_stock = 0 + 10 :=
  ⟨(C3_collapsed_terminal
      { Colony.new "Aggressive" 0 0 with food_stock := 0, queen_alive := false } rfl).1,
   (C3_collapsed_terminal
      { Colony.new "Aggressive" 0 0 with food_stock := 0, queen_alive := false }
      rfl).2.2.2.2 10 (by decide)⟩

/-! ## Registry: creation -/

theorem spawn_all_colony_list (m : Meadow) (calls : List (String × Int × Int)) :
    (m.spawn_all calls).colony_list =
      m.colony_list ++ calls.map (fun a => Colony.new a.1 a.2.1 a.2.2) := by
  induction calls generalizing m with
  | nil => simp [Meadow.spawn_all]
  | cons a rest ih =>
      rw [Meadow.spawn_all, ih]
      simp [Meadow.spawn_colony]

theorem spawn_all_append (m : Meadow) (pre post : List (String × Int × Int)) :
    m.spawn_all (pre ++ post) = (m.spawn_all pre).spawn_all post := by
  induction pre generalizing m with
  | nil => rfl
  | cons a rest ih => exact ih _

/-- C4: in a sequence of `create_colony` calls `pre ++ a :: post` performed
from the empty registry, the call `a` (the one with `pre.length` calls before
it) finds a registry of length `pre.length`, succeeds, grows the registry by
exactly one, places its colony at index `pre.length` and leaves the colonies
at smaller indices as they were; the calls after it leave all of these in
place, so the final registry lists the created colonies in call order and the
index of a colony is never given to another one. -/
theorem C4_create_colony_ids (pre post : List (String × Int × Int))
    (a : String × Int × Int) :
    (Meadow.empty.spawn_all pre).colony_list.length = pre.length ∧
    ((Meadow.empty.spawn_all pre).spawn_colony a.1 a.2.1 a.2.2).2 =
      [Out.colonyCreated a.1 a.2.1 a.2.2] ∧
    ((Meadow.empty.spawn_all pre).spawn_colony a.1 a.2.1 a.2.2).1.colony_list.length =
      pre.length + 1 ∧
    ((Meadow.empty.spawn_all pre).spawn_colony a.1 a.2.1 a.2.2).1.colony_list[pre.length]? =
      some (Colony.new a.1 a.2.1 a.2.2) ∧
    (∀ i : Nat, i < pre.length →
      ((Meadow.empty.spawn_all pre).spawn_colony a.1 a.2.1 a.2.2).1.colony_list[i]? =
        (Meadow.empty.spawn_all pre).colony_list[i]?) ∧
    Meadow.empty.spawn_all (pre ++ a :: post) =
      ((Meadow.empty.spawn_all pre).spawn_colony a.1 a.2.1 a.2.2).1.spawn_all post ∧
    (Meadow.empty.spawn_all (pre ++ a :: post)).colony_list[pre.length]? =
      some (Colony.new a.1 a.2.1 a.2.2) ∧
    (∀ i : Nat, i < pre.length →
      (Meadow.empty.spawn_all (pre ++ a :: post)).colony_list[i]? =
        (Meadow.empty.spawn_all pre).colony_list[i]?) ∧
    (Meadow.empty.spawn_all (pre ++ a :: post)).colony_list =
      (pre ++ a :: post).map (fun b => Colony.new b.1 b.2.1 b.2.2) := by
  have hpre : (Meadow.empty.spawn_all pre).colony_list =
      pre.map (fun b => Colony.new b.1 b.2.1 b.2.2) := by
    rw [spawn_all_colony_list]; simp [Meadow.empty]
  have hall : (Meadow.empty.spawn_all (pre ++ a :: post)).colony_list =
      (pre ++ a :: post).map (fun b => Colony.new b.1 b.2.1 b.2.2) := by
    rw [spawn_all_colony_list]; simp [Meadow.empty]
  refine ⟨?_, rfl, ?_, ?_, ?_, ?_, ?_, ?_, hall⟩
  · rw [hpre]; simp
  · simp [Meadow.spawn_colony, hpre]
  · simp [Meadow.spawn_colony, hpre, List.getElem?_append_right]
  · intro i hi
    simp [Meadow.spawn_colony, hpre, List.getElem?_append_left, hi]
  · rw [spawn_all_append]; rfl
  · rw [hall, List.map_append, List.getElem?_append_right (by simp)]
    simp
  · intro i hi
    rw [hall, hpre]
    simp [List.getElem?_append_left, hi]

/-- Witness of C4: three calls; the second colony is found at index 1 after
its call and after the third call, and index 0 still holds the first one. -/
theorem C4_create_colony_ids_witness :
    (Meadow.empty.spawn_all
        ([("Aggressive", 0, 0)] ++ ("Harvester", 10, 20) :: [("Nomad", 3, 4)])).colony_list[1]? =
      some (Colony.new "Harvester" 10 20) ∧
    (Meadow.empty.spawn_all
        ([("Aggressive", 0, 0)] ++ ("Harvester", 10, 20) :: [("Nomad", 3, 4)])).colony_list[0]? =
      (Meadow.empty.spawn_all [("Aggressive", 0, 0)]).colony_list[0]? :=
  ⟨(C4_create_colony_ids [("Aggressive", 0, 0)] [("Nomad", 3, 4)]
      ("Harvester", 10, 20)).2.2.2.2.2.2.1,
   (C4_create_colony_ids [("Aggressive", 0, 0)] [("Nomad", 3, 4)]
      ("Harvester", 10, 20)).2.2.2.2.2.2.2.1 0 (by decide)⟩

/-! ## Registry: lookup by id -/

theorem toSizeT_of_nonneg {v : Int} (h0 : 0 ≤ v) (h : IsInt v) : toSizeT v = v.toNat := by
  unfold IsInt INT_MIN INT_MAX at h
  unfold toSizeT
  omega

/-- The guard of `allocate_resources` and `display_summary` holds exactly for
the ids in `[0, len)`. -/
theorem id_guard_iff (m : Meadow) (colony_id : Int) (h : IsInt colony_id) :
    (colony_id ≥ 0 ∧ toSizeT colony_id < m.colony_list.length) ↔
      (0 ≤ colony_id ∧ colony_id < (m.colony_list.length : Int)) := by
  constructor
  · rintro ⟨h0, hlt⟩
    rw [toSizeT_of_nonneg h0 h] at hlt
    exact ⟨h0, by omega⟩
  · rintro ⟨h0, hlt⟩
    rw [toSizeT_of_nonneg h0 h]
    exact ⟨h0, by omega⟩

theorem allocate_resources_invalid (m : Meadow) (colony_id : Int) (kind : String)
    (quantity : Int) (h : IsInt colony_id)
    (hout : colony_id < 0 ∨ (m.colony_list.length : Int) ≤ colony_id) :
    m.allocate_resources colony_id kind quantity = (m, [Out.invalidColonyId]) := by
  have hg : ¬ (colony_id ≥ 0 ∧ toSizeT colony_id < m.colony_list.length) := by
    rw [id_guard_iff m colony_id h]; omega
  simp only [Meadow.allocate_resources, dif_neg hg]

theorem allocate_resources_valid (m : Meadow) (colony_id : Int) (kind : String)
    (quantity : Int) (h : IsInt colony_id) (c : Colony) (h0 : 0 ≤ colony_id)
    (hc : m.colony_list[colony_id.toNat]? = some c) :
    m.allocate_resources colony_id kind quantity =
      ({ colony_list := m.colony_list.set colony_id.toNat (c.receive_resources kind quantity).1 },
        (c.receive_resources kind quantity).2) := by
  have hlt : colony_id.toNat < m.colony_list.length := by
    rcases List.getElem?_eq_some.1 hc with ⟨hl, _⟩
    exact hl
  have hs : toSizeT colony_id = colony_id.toNat := toSizeT_of_nonneg h0 h
  have hg : colony_id ≥ 0 ∧ toSizeT colony_id < m.colony_list.length := ⟨h0, by omega⟩
  have hget : m.colony_list.get ⟨toSizeT colony_id, hg.2⟩ = c := by
    rcases List.getElem?_eq_some.1 hc with ⟨hl, he⟩
    simp only [List.get_eq_getElem, hs]
    exact he
  unfold Meadow.allocate_resources
  rw [dif_pos hg]
  dsimp only
  rw [hget, hs]

theorem receive_resources_output_ne_invalid (c : Colony) (kind : String) (q : Int) :
    (c.receive_resources kind q).2 ≠ [Out.invalidColonyId] := by
  unfold Colony.receive_resources
  split <;> simp

/-- C5: `allocate_resources(id, kind, amount)` reports `Invalid colony ID.`
if and only if `id < 0` or `id >= len`, and then the registry is unchanged;
when `0 <= id < len` the colony at index `id` is replaced by the result of its
`receive_resources(kind, amount)`, whose output is the output of the call. -/
theorem C5_allocate_resources_lookup (m : Meadow) (colony_id : Int) (kind : String)
    (quantity : Int) (h : IsInt colony_id) :
    ((m.allocate_resources colony_id kind quantity).2 = [Out.invalidColonyId] ↔
        (colony_id < 0 ∨ (m.colony_list.length : Int) ≤ colony_id)) ∧
    ((colony_id < 0 ∨ (m.colony_list.length : Int) ≤ colony_id) →
        m.allocate_resources colony_id kind quantity = (m, [Out.invalidColonyId])) ∧
    (∀ c : Colony, 0 ≤ colony_id → m.colony_list[colony_id.toNat]? = some c →
        m.allocate_resources colony_id kind quantity =
          ({ colony_list :=
              m.colony_list.set colony_id.toNat (c.receive_resources kind quantity).1 },
            (c.receive_resources kind quantity).2)) := by
  refine ⟨⟨?_, ?_⟩, allocate_resources_invalid m colony_id kind quantity h,
    fun c h0 hc => allocate_resources_valid m colony_id kind quantity h c h0 hc⟩
  · intro hout
    by_contra hin
    have h0 : 0 ≤ colony_id := by omega
    have hlt : colony_id.toNat < m.colony_list.length := by omega
    have hc : m.colony_list[colony_id.toNat]? = some (m.colony_list[colony_id.toNat]) :=
      List.getElem?_eq_getElem hlt
    rw [allocate_resources_valid m colony_id kind quantity h _ h0 hc] at hout
    exact receive_resources_output_ne_invalid _ kind quantity hout
  · intro hout
    rw [allocate_resources_invalid m colony_id kind quantity h hout]

/-- Witness of C5: id 99 on the empty registry is reported invalid and the
registry stays empty; id 0 on a registry of one colony feeds that colony. -/
theorem C5_allocate_resources_lookup_witness :
    Meadow.empty.allocate_resources 99 "food" 50 = (Meadow.empty, [Out.invalidColonyId]) ∧
    (Meadow.mk [Colony.new "Aggressive" 0 0]).allocate_resources 0 "food" 50 =
      ({ colony_list := [Colony.new "Aggressive" 0 0].set (0 : Int).toNat
            ((Colony.new "Aggressive" 0 0).receive_resources "food" 50).1 },
        ((Colony.new "Aggressive" 0 0).receive_resources "food" 50).2) :=
  ⟨(C5_allocate_resources_lookup Meadow.empty 99 "food" 50 (by decide)).2.1 (by decide),
   (C5_allocate_resources_lookup (Meadow.mk [Colony.new "Aggressive" 0 0]) 0 "food" 50
      (by decide)).2.2 (Colony.new "Aggressive" 0 0) (by decide) rfl⟩

/-! ## Registry: tick rounds -/

theorem tick_colonies_length (cs : List Colony) :
    (Meadow.tick_colonies cs).1.length = cs.length := by
  induction cs with
  | nil => rfl
  | cons c rest ih => simp [Meadow.tick_colonies, ih]

theorem tick_colonies_eq_map (cs : List Colony) :
    (Meadow.tick_colonies cs).1 = cs.map (fun c => c.process_tick.1) := by
  induction cs with
  | nil => rfl
  | cons c rest ih => simp [Meadow.tick_colonies, ih]

theorem tick_colonies_traced_fst (round : Int) (idx : Nat) (cs : List Colony) :
    (Meadow.tick_colonies_traced round idx cs).1 = (Meadow.tick_colonies cs).1 := by
  induction cs generalizing idx with
  | nil => rfl
  | cons c rest ih => simp [Meadow.tick_colonies_traced, Meadow.tick_colonies, ih]

theorem tick_colonies_traced_snd (round : Int) (idx : Nat) (cs : List Colony) :
    (Meadow.tick_colonies_traced round idx cs).2 =
      (List.range cs.length).map (fun j : Nat => (round, idx + j)) := by
  induction cs generalizing idx with
  | nil => rfl
  | cons c rest ih =>
      simp only [Meadow.tick_colonies_traced, ih, List.length_cons, List.range_succ_eq_map,
        List.map_cons, List.map_map, Nat.add_zero]
      congr 1
      apply List.map_congr_left
      intro j _
      simp only [Function.comp_apply, Nat.succ_eq_add_one]
      congr 1
      omega

theorem roundRobin_succ (n k : Nat) (i : Int) :
    roundRobin (n + 1) k i =
      (List.range k).map (fun j : Nat => (i + 1, j)) ++ roundRobin n k (i + 1) := by
  unfold roundRobin
  rw [List.range_succ_eq_map, List.flatMap_cons, List.flatMap_map]
  congr 1
  · simp
  · congr 1
    funext r
    apply List.map_congr_left
    intro j _
    simp only [Nat.succ_eq_add_one, Nat.cast_add, Nat.cast_one]
    congr 1
    omega

theorem roundRobin_length (n k : Nat) (i : Int) : (roundRobin n k i).length = n * k := by
  induction n generalizing i with
  | zero => simp [roundRobin]
  | succ n ih =>
      rw [roundRobin_succ, List.length_append, ih, List.length_map, List.length_range]
      ring

theorem roundRobin_getElem (n k : Nat) (i : Int) (r j : Nat) (hr : r < n) (hj : j < k) :
    (roundRobin n k i)[r * k + j]? = some (i + (r : Int) + 1, j) := by
  induction n generalizing i r with
  | zero => omega
  | succ n ih =>
      rw [roundRobin_succ]
      cases r with
      | zero =>
          rw [List.getElem?_append_left (by simpa using hj)]
          simp [hj]
      | succ r =>
          have hidx : (r + 1) * k + j = k + (r * k + j) := by ring
          rw [hidx, List.getElem?_append_right (by simp)]
          simp only [List.length_map, List.length_range, Nat.add_sub_cancel_left]
          rw [ih (i + 1) r (by omega)]
          simp only [Nat.cast_add, Nat.cast_one, Option.some.injEq, Prod.mk.injEq, and_true]
          omega

theorem tick_rounds_traced_spec (n : Nat) (i : Int) (m : Meadow) :
    (Meadow.tick_rounds_traced n i m).1 = (Meadow.tick_rounds n i m).1 ∧
    (Meadow.tick_rounds_traced n i m).2 = roundRobin n m.colony_list.length i := by
  induction n generalizing i m with
  | zero => exact ⟨rfl, rfl⟩
  | succ n ih =>
      have h := ih (i + 1) { colony_list := (Meadow.tick_colonies m.colony_list).1 }
      simp only [Meadow.tick_rounds_traced, Meadow.tick_rounds, tick_colonies_traced_fst,
        tick_colonies_traced_snd, h.1, h.2, tick_colonies_length, roundRobin_succ, Nat.zero_add,
        and_self]

theorem tick_colonies_output (cs : List Colony) :
    (Meadow.tick_colonies cs).2 = cs.flatMap (fun c => c.process_tick.2) := by
  induction cs with
  | nil => rfl
  | cons c rest ih => simp [Meadow.tick_colonies, ih]

/-- What `n` rounds starting at loop counter `i` write: for each round in
turn its header, then what the tick of each colony writes, in registry order;
the tick of round `r + 1` acts on the colony as `r` ticks have left it. -/
theorem tick_rounds_output (n : Nat) (i : Int) (m : Meadow) :
    (Meadow.tick_rounds n i m).2 =
      (List.range n).flatMap (fun r : Nat =>
        Out.processingTick (i + (r : Int) + 1) ::
          m.colony_list.flatMap (fun c => (c.process_ticks r).process_tick.2)) := by
  induction n generalizing i m with
  | zero => rfl
  | succ n ih =>
      rw [Meadow.tick_rounds, List.range_succ_eq_map, List.flatMap_cons, List.flatMap_map]
      simp only [ih, tick_colonies_output, tick_colonies_eq_map, List.flatMap_map,
        Colony.process_ticks, Nat.cast_zero, add_zero, List.cons_append]
      congr 2
      congr 1
      funext r
      simp only [Nat.succ_eq_add_one, Nat.cast_add, Nat.cast_one, Colony.process_ticks]
      congr 2
      ring

/-- C6: for every `n >= 0` and every registry of `k` colonies,
`execute_ticks(n)` works round by round: what it writes is, for the rounds
`1, ..., n` in turn, the header of the round followed by what the tick of each
colony writes, in registry order, the tick of round `r + 1` acting on the
colony as its `r` earlier ticks have left it.  Recorded call by call, it calls
`process_tick` exactly `n * k` times, and the call at position `r * k + j` of
the sequence is the round-`(r + 1)` tick of colony `j`: the sequence is
`(1,0), ..., (1,k-1), (2,0), ..., (n,k-1)`, so all colonies get their tick of
one round before any gets its tick of the next.  The recording loop computes
the same registry as `execute_ticks`. -/
theorem C6_execute_ticks_round_robin (m : Meadow) (n : Nat) :
    (m.execute_ticks n).2 =
      (List.range n).flatMap (fun r : Nat =>
        Out.processingTick ((r : Int) + 1) ::
          m.colony_list.flatMap (fun c => (c.process_ticks r).process_tick.2)) ∧
    (m.execute_ticks_traced n).1 = (m.execute_ticks n).1 ∧
    (m.execute_ticks_traced n).2.length = n * m.colony_list.length ∧
    (m.execute_ticks_traced n).2 =
      (List.range n).flatMap (fun r : Nat =>
        (List.range m.colony_list.length).map (fun j : Nat => ((r : Int) + 1, j))) ∧
    (∀ r j : Nat, r < n → j < m.colony_list.length →
      (m.execute_ticks_traced n).2[r * m.colony_list.length + j]? = some ((r : Int) + 1, j)) := by
  have h := tick_rounds_traced_spec n 0 m
  have htr : (m.execute_ticks_traced n).2 = roundRobin n m.colony_list.length 0 := by
    simpa [Meadow.execute_ticks_traced] using h.2
  refine ⟨?_, ?_, ?_, ?_, ?_⟩
  · simp only [Meadow.execute_ticks, Int.toNat_ofNat, tick_rounds_output, zero_add]
  · simpa [Meadow.execute_ticks_traced, Meadow.execute_ticks] using h.1
  · rw [htr, roundRobin_length]
  · rw [htr]
    simp [roundRobin]
  · intro r j hr hj
    rw [htr, roundRobin_getElem n _ 0 r j hr hj]
    simp

/-- Witness of C6: two rounds over two colonies, with food stock 10 and 5.
The queen of colony 1 dies in round 1 and the queen of colony 0 in round 2, so
each round header is followed by one death line; the third call of
`process_tick` (position `1 * 2 + 0`) is the round-2 tick of colony 0. -/
theorem C6_execute_ticks_round_robin_witness :
    ((Meadow.mk [{ Colony.new "Aggressive" 0 0 with food_stock := 10 },
        { Colony.new "Harvester" 10 20 with food_stock := 5 }]).execute_ticks
          ((2 : Nat) : Int)).2 =
      [Out.processingTick 1, Out.queenPerished, Out.processingTick 2, Out.queenPerished] ∧
    ((Meadow.mk [{ Colony.new "Aggressive" 0 0 with food_stock := 10 },
        { Colony.new "Harvester" 10 20 with food_stock := 5 }]).execute_ticks_traced
          ((2 : Nat) : Int)).2[1 * 2 + 0]? = some (((1 : Nat) : Int) + 1, 0) :=
  ⟨(C6_execute_ticks_round_robin
      (Meadow.mk [{ Colony.new "Aggressive" 0 0 with food_stock := 10 },
        { Colony.new "Harvester" 10 20 with food_stock := 5 }]) 2).1.trans (by decide),
   (C6_execute_ticks_round_robin
      (Meadow.mk [{ Colony.new "Aggressive" 0 0 with food_stock := 10 },
        { Colony.new "Harvester" 10 20 with food_stock := 5 }]) 2).2.2.2.2 1 0
      (by decide) (by decide)⟩

/-! ## The feeding-and-starving scenario -/

theorem tick_rounds_add (a b : Nat) (i : Int) (m : Meadow) :
    Meadow.tick_rounds (a + b) i m =
      ((Meadow.tick_rounds b (i + a) (Meadow.tick_rounds a i m).1).1,
        (Meadow.tick_rounds a i m).2 ++
          (Meadow.tick_rounds b (i + a) (Meadow.tick_rounds a i m).1).2) := by
  induction a generalizing i m with
  | zero => simp [Meadow.tick_rounds]
  | succ a ih =>
      have hab : a + 1 + b = (a + b) + 1 := by omega
      have hi : i + ((a + 1 : Nat) : Int) = i + 1 + (a : Int) := by push_cast; ring
      rw [hab, Meadow.tick_rounds, ih, hi]
      simp [Meadow.tick_rounds]

/-- While the food stock of a single living colony exceeds `5 * n`, `n` rounds
lower it by `5 * n` and write only the round headers. -/
theorem tick_rounds_single_alive (n : Nat) (i : Int) (c : Colony)
    (ha : c.queen_alive = true) (hf : IsInt c.food_stock) (hn : 5 * (n : Int) < c.food_stock) :
    Meadow.tick_rounds n i { colony_list := [c] } =
      ({ colony_list := [{ c with food_stock := c.food_stock - 5 * (n : Int) }] },
        (List.range n).map (fun r : Nat => Out.processingTick (i + (r : Int) + 1))) := by
  induction n generalizing i c with
  | zero => simp [Meadow.tick_rounds]
  | succ n ih =>
      have hr := hf
      unfold IsInt INT_MIN INT_MAX at hr
      push_cast at hn
      have hw : wrapInt (c.food_stock - 5) = c.food_stock - 5 := by
        unfold wrapInt; omega
      have hpos : ¬ (c.food_stock - 5 ≤ 0) := by omega
      have hstep : c.process_tick = ({ c with food_stock := c.food_stock - 5 }, []) := by
        simp [Colony.process_tick, ha, hw, hpos]
      have hf1 : IsInt ({ c with food_stock := c.food_stock - 5 } : Colony).food_stock := by
        unfold IsInt INT_MIN INT_MAX; constructor <;> simp only <;> omega
      have h := ih (i + 1) { c with food_stock := c.food_stock - 5 } ha hf1
        (by simp only; omega)
      rw [Meadow.tick_rounds]
      simp only [Meadow.tick_colonies, hstep, h, List.append_nil, List.nil_append]
      refine Prod.ext ?_ ?_
      · simp only [Nat.cast_add, Nat.cast_one]
        congr 3
        ring
      · simp only [List.range_succ_eq_map, List.map_cons, List.map_map, List.cons_append,
          List.nil_append, Nat.cast_zero, add_zero]
        congr 1
        apply List.map_congr_left
        intro r _
        simp only [Function.comp_apply, Nat.succ_eq_add_one, Nat.cast_add, Nat.cast_one]
        congr 1
        ring

theorem scenarioFed_eq :
    scenarioFed = { colony_list := [{ Colony.new "Aggressive" 0 0 with food_stock := 150 }] } := by
  decide

theorem scenario_29 :
    Meadow.tick_rounds 29 0 scenarioFed =
      ({ colony_list := [{ Colony.new "Aggressive" 0 0 with food_stock := 5 }] },
        (List.range 29).map (fun r : Nat => Out.processingTick (0 + (r : Int) + 1))) := by
  rw [scenarioFed_eq,
    tick_rounds_single_alive 29 0 { Colony.new "Aggressive" 0 0 with food_stock := 150 } rfl
      (by decide) (by decide)]
  rfl

theorem scenario_30 :
    Meadow.tick_rounds 30 0 scenarioFed =
      ({ colony_list :=
          [{ Colony.new "Aggressive" 0 0 with food_stock := 0, queen_alive := false }] },
        (List.range 29).map (fun r : Nat => Out.processingTick (0 + (r : Int) + 1)) ++
          [Out.processingTick 30, Out.queenPerished]) := by
  rw [show (30 : Nat) = 29 + 1 from rfl, tick_rounds_add, scenario_29]
  rfl

theorem scenario_31 :
    Meadow.tick_rounds 31 0 scenarioFed =
      ({ colony_list :=
          [{ Colony.new "Aggressive" 0 0 with food_stock := 0, queen_alive := false }] },
        (List.range 29).map (fun r : Nat => Out.processingTick (0 + (r : Int) + 1)) ++
          [Out.processingTick 30, Out.queenPerished, Out.processingTick 31]) := by
  rw [show (31 : Nat) = 29 + 2 from rfl, tick_rounds_add, scenario_29]
  rfl

/-- C7: from the empty registry, `create_colony("Aggressive", 0, 0)` puts the
colony at index 0; `allocate_resources(0, "food", 50)` makes its food stock
150; in `execute_ticks(31)` the queen is alive with food stock 5 after round
29, dies in round 30 with food stock 0 (the death is written between the
headers of rounds 30 and 31), and round 31 changes nothing;
`display_summary(0)` then shows a dead queen and changes nothing. -/
theorem C7_scenario :
    (Meadow.empty.spawn_colony "Aggressive" 0 0).1.colony_list[0]? =
      some (Colony.new "Aggressive" 0 0) ∧
    scenarioFed.colony_list = [{ Colony.new "Aggressive" 0 0 with food_stock := 150 }] ∧
    (scenarioFed.execute_ticks 29).1.colony_list =
      [{ Colony.new "Aggressive" 0 0 with food_stock := 5, queen_alive := true }] ∧
    (scenarioFed.execute_ticks 30).1.colony_list =
      [{ Colony.new "Aggressive" 0 0 with food_stock := 0, queen_alive := false }] ∧
    (scenarioFed.execute_ticks 31).1 = (scenarioFed.execute_ticks 30).1 ∧
    (scenarioFed.execute_ticks 31).1 =
      (Meadow.tick_rounds 2 29 (scenarioFed.execute_ticks 29).1).1 ∧
    (scenarioFed.execute_ticks 31).2 =
      (List.range 29).map (fun r : Nat => Out.processingTick ((r : Int) + 1)) ++
        [Out.processingTick 30, Out.queenPerished, Out.processingTick 31] ∧
    (scenarioFed.execute_ticks 31).1.display_summary 0 =
      ((scenarioFed.execute_ticks 31).1, [Out.details "Aggressive" 0 0 0 false 0 0]) ∧
    Out.render (Out.details "Aggressive" 0 0 0 false 0 0) =
      "Type: Aggressive\nLocation: (0, 0)\nFood Stock: 0\nQueen Alive: No\nRooms: 0\nInsects: 0\n" := by
  have h29 : scenarioFed.execute_ticks 29 = Meadow.tick_rounds 29 0 scenarioFed := rfl
  have h30 : scenarioFed.execute_ticks 30 = Meadow.tick_rounds 30 0 scenarioFed := rfl
  have h31 : scenarioFed.execute_ticks 31 = Meadow.tick_rounds 31 0 scenarioFed := rfl
  rw [h29, h30, h31, scenario_29, scenario_30, scenario_31, scenarioFed_eq]
  refine ⟨rfl, rfl, rfl, rfl, rfl, rfl, ?_, by decide, by decide⟩
  simp

/-! ## Irreversibility of collapse -/

theorem tick_colonies_dead_at (cs : List Colony) (i : Nat) (c : Colony)
    (hc : cs[i]? = some c) (hq : c.queen_alive = false) :
    (Meadow.tick_colonies cs).1[i]? = some c := by
  rw [tick_colonies_eq_map, List.getElem?_map, hc, Option.map_some', process_tick_dead c hq]

theorem tick_rounds_dead_at (n : Nat) (k : Int) (m : Meadow) (i : Nat) (c : Colony)
    (hc : m.colony_list[i]? = some c) (hq : c.queen_alive = false) :
    (Meadow.tick_rounds n k m).1.colony_list[i]? = some c := by
  induction n generalizing k m with
  | zero => exact hc
  | succ n ih =>
      rw [Meadow.tick_rounds]
      exact ih (k + 1) _ (tick_colonies_dead_at m.colony_list i c hc hq)

theorem allocate_resources_dead_at (m : Meadow) (colony_id : Int) (kind : String)
    (quantity : Int) (i : Nat) (c : Colony)
    (hc : m.colony_list[i]? = some c) (hq : c.queen_alive = false) :
    ∃ c', (m.allocate_resources colony_id kind quantity).1.colony_list[i]? = some c' ∧
      c'.queen_alive = false := by
  unfold Meadow.allocate_resources
  by_cases hg : colony_id ≥ 0 ∧ toSizeT colony_id < m.colony_list.length
  · rw [dif_pos hg]
    dsimp only
    rw [List.getElem?_set]
    by_cases hi : toSizeT colony_id = i
    · rw [if_pos hi, if_pos hg.2]
      refine ⟨_, rfl, ?_⟩
      rw [receive_resources_queen]
      have hget : m.colony_list.get ⟨toSizeT colony_id, hg.2⟩ = c := by
        rcases List.getElem?_eq_some.1 hc with ⟨hl, he⟩
        subst hi
        simpa using he
      rw [hget]; exact hq
    · rw [if_neg hi]
      exact ⟨c, hc, hq⟩
  · rw [dif_neg hg]
    exact ⟨c, hc, hq⟩

theorem set_get_self {α : Type} (l : List α) (i : Nat) (h : i < l.length) :
    l.set i (l.get ⟨i, h⟩) = l := by
  apply List.ext_getElem?
  intro j
  rw [List.getElem?_set]
  by_cases hij : i = j
  · subst hij
    rw [if_pos rfl, if_pos h, List.get_eq_getElem, List.getElem?_eq_getElem h]
  · rw [if_neg hij]

theorem display_summary_state (m : Meadow) (colony_id : Int) :
    (m.display_summary colony_id).1 = m := by
  unfold Meadow.display_summary
  by_cases hg : colony_id ≥ 0 ∧ toSizeT colony_id < m.colony_list.length
  · rw [dif_pos hg]
    dsimp only [Colony.display_details]
    rw [set_get_self]
  · rw [dif_neg hg]

theorem apply_dead_at (m : Meadow) (op : EngineOp) (i : Nat) (c : Colony)
    (hc : m.colony_list[i]? = some c) (hq : c.queen_alive = false) :
    ∃ c', (m.apply op).1.colony_list[i]? = some c' ∧ c'.queen_alive = false := by
  cases op with
  | create_colony type x y =>
      refine ⟨c, ?_, hq⟩
      have hl : i < m.colony_list.length := (List.getElem?_eq_some.1 hc).1
      simp only [Meadow.apply, Meadow.spawn_colony]
      rw [List.getElem?_append_left hl]
      exact hc
  | allocate_resources id kind amount =>
      exact allocate_resources_dead_at m id kind amount i c hc hq
  | execute_ticks n => exact ⟨c, tick_rounds_dead_at _ 0 m i c hc hq, hq⟩
  | display_summary id =>
      refine ⟨c, ?_, hq⟩
      simp only [Meadow.apply, display_summary_state]
      exact hc

/-- C8: for every registry, every colony in it whose queen is dead and every
finite sequence of engine operations (`create_colony`, `allocate_resources`
with any id, kind and amount, `execute_ticks`, `display_summary`), the colony
at the same index after the sequence still has a dead queen: no operation sets
`queen_alive` back to true. -/
theorem C8_collapse_irreversible (m : Meadow) (ops : List EngineOp) (i : Nat) (c : Colony)
    (hc : m.colony_list[i]? = some c) (hq : c.queen_alive = false) :
    ∃ c', (m.run ops).1.colony_list[i]? = some c' ∧ c'.queen_alive = false := by
  induction ops generalizing m c with
  | nil => exact ⟨c, hc, hq⟩
  | cons op ops ih =>
      obtain ⟨c1, hc1, hq1⟩ := apply_dead_at m op i c hc hq
      exact ih (m.apply op).1 c1 hc1 hq1

/-- Witness of C8: a collapsed colony is fed, ticked, joined by a new colony
and displayed; its queen is still dead. -/
theorem C8_collapse_irreversible_witness :
    ∃ c', ((Meadow.mk
        [{ Colony.new "Aggressive" 0 0 with food_stock := 0, queen_alive := false }]).run
          [EngineOp.allocate_resources 0 "food" 500, EngineOp.execute_ticks 3,
           EngineOp.create_colony "Harvester" 10 20,
           EngineOp.display_summary 0]).1.colony_list[0]? = some c' ∧
      c'.queen_alive = false :=
  C8_collapse_irreversible
    (Meadow.mk [{ Colony.new "Aggressive" 0 0 with food_stock := 0, queen_alive := false }])
    [EngineOp.allocate_resources 0 "food" 500, EngineOp.execute_ticks 3,
     EngineOp.create_colony "Harvester" 10 20, EngineOp.display_summary 0]
    0 { Colony.new "Aggressive" 0 0 with food_stock := 0, queen_alive := false } rfl rfl

/-! ## Insects -/

/-- C9: `generate_insect` returns an insect for each category of the closed
enumeration, never the null pointer: for `Worker` a `BasicInsect` alone, whose
`show_attributes` writes the single line of the label `Basic`; for `Fighter` a
`PowerfulInsect` around a `BasicInsect`, whose `show_attributes` writes the
line of `Basic` followed by the line of `Powerful`. -/
theorem C9_generate_insect :
    generate_insect InsectCategory.Worker = some Insect.BasicInsect ∧
    Insect.BasicInsect.show_attributes = [Out.basicAttributes] ∧
    Insect.BasicInsect.describe = [some "Basic"] ∧
    generate_insect InsectCategory.Fighter = some (Insect.PowerfulInsect Insect.BasicInsect) ∧
    (Insect.PowerfulInsect Insect.BasicInsect).show_attributes =
      [Out.basicAttributes, Out.plusAttribute "Powerful"] ∧
    (Insect.PowerfulInsect Insect.BasicInsect).describe = [some "Basic", some "Powerful"] ∧
    (∀ category : InsectCategory, generate_insect category ≠ none) ∧
    (∀ category : InsectCategory, ∀ i : Insect, generate_insect category = some i →
      i.show_attributes ≠ []) := by
  refine ⟨rfl, rfl, rfl, rfl, rfl, rfl, ?_, ?_⟩
  · intro category
    cases category <;> simp [generate_insect]
  · intro category i h
    cases category <;> simp [generate_insect] at h <;> subst h <;>
      simp [Insect.show_attributes]

/-- Witness of C9: the insect generated for `Fighter` writes something. -/
theorem C9_generate_insect_witness :
    (Insect.PowerfulInsect Insect.BasicInsect).show_attributes ≠ [] :=
  C9_generate_insect.2.2.2.2.2.2.2 InsectCategory.Fighter
    (Insect.PowerfulInsect Insect.BasicInsect) rfl

theorem wrap_show_attributes (w : Wrapper) (i : Insect) :
    (w.wrap i).show_attributes = i.show_attributes ++ [Out.plusAttribute w.label] := by
  cases w <;> rfl

theorem wrapAll_snoc (ws : List Wrapper) (w : Wrapper) (base : Insect) :
    wrapAll (ws ++ [w]) base = w.wrap (wrapAll ws base) := by
  simp [wrapAll, List.foldl_append]

theorem wrapAll_show_attributes (ws : List Wrapper) :
    (wrapAll ws Insect.BasicInsect).show_attributes =
      Out.basicAttributes :: ws.map (fun w => Out.plusAttribute w.label) := by
  induction ws using List.reverseRecOn with
  | nil => rfl
  | append_singleton ws w ih =>
      rw [wrapAll_snoc, wrap_show_attributes, ih]
      simp

theorem insect_is_chain (i : Insect) : ∃ ws : List Wrapper, i = wrapAll ws Insect.BasicInsect := by
  induction i with
  | BasicInsect => exact ⟨[], rfl⟩
  | PowerfulInsect b ih =>
      obtain ⟨ws, hws⟩ := ih
      exact ⟨ws ++ [Wrapper.Powerful], by rw [wrapAll_snoc, ← hws]; rfl⟩
  | ResourcefulInsect b ih =>
      obtain ⟨ws, hws⟩ := ih
      exact ⟨ws ++ [Wrapper.Resourceful], by rw [wrapAll_snoc, ← hws]; rfl⟩

/-- C10: a wrapper writes what its inner insect writes followed by its own
single line, and each wrapper's label is `Powerful` or `Resourceful`; hence
the insect built from a `BasicInsect` by the wrappers `ws` (first one
innermost) writes the line of `Basic` followed by the lines of the labels of
`ws` in that order: `ws.length + 1` labels, the first being `Basic`, innermost
first.  Every insect is such a chain. -/
theorem C10_wrapper_chain (ws : List Wrapper) (w : Wrapper) (i : Insect) :
    (w.wrap i).show_attributes = i.show_attributes ++ [Out.plusAttribute w.label] ∧
    (w.wrap i).describe = i.describe ++ [some w.label] ∧
    (w.label = "Powerful" ∨ w.label = "Resourceful") ∧
    (wrapAll ws Insect.BasicInsect).show_attributes =
      Out.basicAttributes :: ws.map (fun w => Out.plusAttribute w.label) ∧
    (wrapAll ws Insect.BasicInsect).describe =
      some "Basic" :: ws.map (fun w => some w.label) ∧
    (wrapAll ws Insect.BasicInsect).describe.length = ws.length + 1 ∧
    (wrapAll ws Insect.BasicInsect).describe.head? = some (some "Basic") ∧
    (∃ ws' : List Wrapper, i = wrapAll ws' Insect.BasicInsect) := by
  have hd : (wrapAll ws Insect.BasicInsect).describe =
      some "Basic" :: ws.map (fun w => some w.label) := by
    simp [Insect.describe, wrapAll_show_attributes, Out.label, Function.comp_def]
  refine ⟨wrap_show_attributes w i, ?_, ?_, wrapAll_show_attributes ws, hd, ?_, ?_,
    insect_is_chain i⟩
  · simp [Insect.describe, wrap_show_attributes, Out.label]
  · cases w
    · exact Or.inl rfl
    · exact Or.inr rfl
  · rw [hd]; simp
  · rw [hd]; rfl

/-! ## Registry: summary -/

theorem display_summary_invalid (m : Meadow) (colony_id : Int) (h : IsInt colony_id)
    (hout : colony_id < 0 ∨ (m.colony_list.length : Int) ≤ colony_id) :
    m.display_summary colony_id = (m, [Out.invalidColonyId]) := by
  have hg : ¬ (colony_id ≥ 0 ∧ toSizeT colony_id < m.colony_list.length) := by
    rw [id_guard_iff m colony_id h]; omega
  simp only [Meadow.display_summary, dif_neg hg]

theorem display_summary_valid (m : Meadow) (colony_id : Int) (h : IsInt colony_id)
    (c : Colony) (h0 : 0 ≤ colony_id) (hc : m.colony_list[colony_id.toNat]? = some c) :
    (m.display_summary colony_id).2 =
      [Out.details c.colony_type c.pos_x c.pos_y c.food_stock c.queen_alive
        c.rooms.length c.insect_list.length] := by
  have hlt : colony_id.toNat < m.colony_list.length := (List.getElem?_eq_some.1 hc).1
  have hs : toSizeT colony_id = colony_id.toNat := toSizeT_of_nonneg h0 h
  have hg : colony_id ≥ 0 ∧ toSizeT colony_id < m.colony_list.length := ⟨h0, by omega⟩
  have hget : m.colony_list.get ⟨toSizeT colony_id, hg.2⟩ = c := by
    rcases List.getElem?_eq_some.1 hc with ⟨hl, he⟩
    simp only [List.get_eq_getElem, hs]
    exact he
  unfold Meadow.display_summary
  rw [dif_pos hg]
  dsimp only
  rw [hget]
  rfl

/-- C11: `display_summary(id)` reports `Invalid colony ID.` if and only if
`id < 0` or `id >= len`; otherwise it writes the snapshot of the colony at
index `id`: its type, position `x` and `y`, food stock, `queen_alive`, number
of rooms and number of insects, each the current value of the field; in both
cases the registry after the call equals the registry before it. -/
theorem C11_display_summary (m : Meadow) (colony_id : Int) (h : IsInt colony_id) :
    ((m.display_summary colony_id).2 = [Out.invalidColonyId] ↔
        (colony_id < 0 ∨ (m.colony_list.length : Int) ≤ colony_id)) ∧
    (∀ c : Colony, 0 ≤ colony_id → m.colony_list[colony_id.toNat]? = some c →
        (m.display_summary colony_id).2 =
          [Out.details c.colony_type c.pos_x c.pos_y c.food_stock c.queen_alive
            c.rooms.length c.insect_list.length]) ∧
    (m.display_summary colony_id).1 = m := by
  refine ⟨⟨?_, ?_⟩, fun c h0 hc => display_summary_valid m colony_id h c h0 hc,
    display_summary_state m colony_id⟩
  · intro hout
    by_contra hin
    have h0 : 0 ≤ colony_id := by omega
    have hlt : colony_id.toNat < m.colony_list.length := by omega
    have hc : m.colony_list[colony_id.toNat]? = some (m.colony_list[colony_id.toNat]) :=
      List.getElem?_eq_getElem hlt
    rw [display_summary_valid m colony_id h _ h0 hc] at hout
    simp at hout
  · intro hout
    rw [display_summary_invalid m colony_id h hout]

/-- Witness of C11: the summary of id 1 in a registry of two colonies is the
snapshot of the second colony, and id 2 is reported invalid. -/
theorem C11_display_summary_witness :
    ((Meadow.mk [Colony.new "Aggressive" 0 0, Colony.new "Harvester" 10 20]).display_summary 1).2 =
      [Out.details "Harvester" 10 20 100 true 0 0] ∧
    ((Meadow.mk [Colony.new "Aggressive" 0 0, Colony.new "Harvester" 10 20]).display_summary 2).2 =
      [Out.invalidColonyId] :=
  ⟨(C11_display_summary (Meadow.mk [Colony.new "Aggressive" 0 0, Colony.new "Harvester" 10 20])
      1 (by decide)).2.1 (Colony.new "Harvester" 10 20) (by decide) rfl,
   (C11_display_summary (Meadow.mk [Colony.new "Aggressive" 0 0, Colony.new "Harvester" 10 20])
      2 (by decide)).1.2 (by decide)⟩

/-! ## Tick counts that are not positive -/

theorem execute_ticks_nonpos (m : Meadow) (n : Int) (hn : n ≤ 0) :
    m.execute_ticks n = (m, []) := by
  have h0 : n.toNat = 0 := by omega
  simp only [Meadow.execute_ticks, h0, Meadow.tick_rounds]

/-- C12: `execute_ticks` runs exactly the count it is given and substitutes no
default: for every registry and every `n <= 0` (zero and the negative counts)
it performs no round, calls `process_tick` on no colony, writes nothing and
leaves the registry, hence every colony, unchanged. -/
theorem C12_execute_ticks_nonpositive (m : Meadow) (n : Int) (hn : n ≤ 0) :
    m.execute_ticks n = (m, []) ∧
    (m.execute_ticks n).1.colony_list = m.colony_list ∧
    (m.execute_ticks_traced n).2 = [] := by
  have h0 : n.toNat = 0 := by omega
  refine ⟨execute_ticks_nonpos m n hn, ?_, ?_⟩
  · rw [execute_ticks_nonpos m n hn]
  · simp only [Meadow.execute_ticks_traced, h0, Meadow.tick_rounds_traced]

/-- Witness of C12: a count of `-3` on a registry of one fresh colony. -/
theorem C12_execute_ticks_nonpositive_witness :
    (Meadow.mk [Colony.new "Aggressive" 0 0]).execute_ticks (-3) =
      (Meadow.mk [Colony.new "Aggressive" 0 0], []) ∧
    ((Meadow.mk [Colony.new "Aggressive" 0 0]).execute_ticks (-3)).1.colony_list =
      [Colony.new "Aggressive" 0 0] ∧
    ((Meadow.mk [Colony.new "Aggressive" 0 0]).execute_ticks_traced (-3)).2 = [] :=
  C12_execute_ticks_nonpositive (Meadow.mk [Colony.new "Aggressive" 0 0]) (-3) (by decide)

/-! ## The initial state of a colony -/

/-- C13: the colony created by `create_colony(type, x, y)` is the last one of
the registry and starts with the given type and position, food stock 100, a
living queen, no rooms and no insects; this is the snapshot `display_details`
writes for it, and the one `display_summary` writes for its id. -/
theorem C13_created_colony_initial (m : Meadow) (type : String) (x y : Int) :
    (m.spawn_colony type x y).1.colony_list[m.colony_list.length]? =
      some (Colony.new type x y) ∧
    (Colony.new type x y).colony_type = type ∧
    (Colony.new type x y).pos_x = x ∧
    (Colony.new type x y).pos_y = y ∧
    (Colony.new type x y).food_stock = 100 ∧
    (Colony.new type x y).queen_alive = true ∧
    (Colony.new type x y).rooms.length = 0 ∧
    (Colony.new type x y).insect_list.length = 0 ∧
    (Colony.new type x y).display_details.2 = [Out.details type x y 100 true 0 0] ∧
    (IsInt (m.colony_list.length : Int) →
      ((m.spawn_colony type x y).1.display_summary (m.colony_list.length : Int)).2 =
        [Out.details type x y 100 true 0 0]) := by
  have hnew : (m.spawn_colony type x y).1.colony_list[m.colony_list.length]? =
      some (Colony.new type x y) := by
    simp [Meadow.spawn_colony]
  refine ⟨hnew, rfl, rfl, rfl, rfl, rfl, rfl, rfl, rfl, ?_⟩
  intro hi
  have hc : (m.spawn_colony type x y).1.colony_list[((m.colony_list.length : Int)).toNat]? =
      some (Colony.new type x y) := by
    rw [Int.toNat_ofNat]; exact hnew
  rw [display_summary_valid _ _ hi (Colony.new type x y) (by omega) hc]
  rfl

/-- Witness of C13: the second colony of a registry, displayed by id 1. -/
theorem C13_created_colony_initial_witness :
    (((Meadow.mk [Colony.new "Aggressive" 0 0]).spawn_colony "Harvester" 10 20).1.display_summary
        (([Colony.new "Aggressive" 0 0].length : Nat) : Int)).2 =
      [Out.details "Harvester" 10 20 100 true 0 0] :=
  (C13_created_colony_initial (Meadow.mk [Colony.new "Aggressive" 0 0]) "Harvester" 10
    20).2.2.2.2.2.2.2.2.2 (by decide)

/-! ## The tick command -/

/-- C14: the `tick` command of the command loop normalises its count before
calling the registry: for every registry and every parsed count it calls
`execute_ticks(count)` when `count > 0` and `execute_ticks(1)` when
`count <= 0`, so a zero or negative count advances every colony by exactly one
call of `process_tick`, under the header of round 1. -/
theorem C14_tick_command_normalises (m : Meadow) (count : Int) :
    (0 < count → main_tick m count = m.execute_ticks count) ∧
    (count ≤ 0 → main_tick m count = m.execute_ticks 1) ∧
    (count ≤ 0 →
      (main_tick m count).1.colony_list = m.colony_list.map (fun c => c.process_tick.1) ∧
      (main_tick m count).2.head? = some (Out.processingTick 1) ∧
      (m.execute_ticks_traced 1).2 =
        (List.range m.colony_list.length).map (fun j : Nat => ((1 : Int), j))) := by
  have hone : (m.execute_ticks 1).1.colony_list =
      m.colony_list.map (fun c => c.process_tick.1) := by
    simp [Meadow.execute_ticks, Meadow.tick_rounds, tick_colonies_eq_map]
  have htr : (m.execute_ticks_traced 1).2 =
      (List.range m.colony_list.length).map (fun j : Nat => ((1 : Int), j)) := by
    simp [Meadow.execute_ticks_traced, Meadow.tick_rounds_traced, tick_colonies_traced_snd]
  refine ⟨?_, ?_, ?_⟩
  · intro h
    simp [main_tick, h]
  · intro h
    have hn : ¬ (count > 0) := by omega
    simp [main_tick, hn]
  · intro h
    have hn : ¬ (count > 0) := by omega
    have hm : main_tick m count = m.execute_ticks 1 := by simp [main_tick, hn]
    rw [hm]
    refine ⟨hone, ?_, htr⟩
    simp [Meadow.execute_ticks, Meadow.tick_rounds]

/-- Witness of C14: the counts 3, 0 and -7 on a registry of one fresh colony;
the last two lower its food stock once, from 100 to 95. -/
theorem C14_tick_command_normalises_witness :
    main_tick (Meadow.mk [Colony.new "Aggressive" 0 0]) 3 =
      (Meadow.mk [Colony.new "Aggressive" 0 0]).execute_ticks 3 ∧
    main_tick (Meadow.mk [Colony.new "Aggressive" 0 0]) 0 =
      (Meadow.mk [Colony.new "Aggressive" 0 0]).execute_ticks 1 ∧
    (main_tick (Meadow.mk [Colony.new "Aggressive" 0 0]) (-7)).1.colony_list =
      [Colony.new "Aggressive" 0 0].map (fun c => c.process_tick.1) :=
  ⟨(C14_tick_command_normalises (Meadow.mk [Colony.new "Aggressive" 0 0]) 3).1 (by decide),
   (C14_tick_command_normalises (Meadow.mk [Colony.new "Aggressive" 0 0]) 0).2.1 (by decide),
   ((C14_tick_command_normalises (Meadow.mk [Colony.new "Aggressive" 0 0]) (-7)).2.2
      (by decide)).1⟩

/-! ## Iterated ticks of one colony -/

theorem process_ticks_dead (c : Colony) (n : Nat) (h : c.queen_alive = false) :
    c.process_ticks n = c := by
  induction n with
  | zero => rfl
  | succ n ih =>
      rw [Colony.process_ticks, process_tick_dead c h]
      exact ih

theorem process_ticks_add (c : Colony) (a b : Nat) :
    c.process_ticks (a + b) = (c.process_ticks a).process_ticks b := by
  induction a generalizing c with
  | zero => simp [Colony.process_ticks]
  | succ a ih =>
      have hab : a + 1 + b = (a + b) + 1 := by omega
      rw [hab, Colony.process_ticks, ih, Colony.process_ticks]

theorem process_tick_alive_high (c : Colony) (ha : c.queen_alive = true)
    (hi : IsInt c.food_stock) (h5 : 5 < c.food_stock) :
    c.process_tick = ({ c with food_stock := c.food_stock - 5 }, []) := by
  unfold IsInt INT_MIN INT_MAX at hi
  have hw : wrapInt (c.food_stock - 5) = c.food_stock - 5 := by
    unfold wrapInt; omega
  have hpos : ¬ (c.food_stock - 5 ≤ 0) := by omega
  simp [Colony.process_tick, ha, hw, hpos]

theorem process_tick_alive_low (c : Colony) (ha : c.queen_alive = true)
    (h0 : 0 < c.food_stock) (h5 : c.food_stock ≤ 5) :
    c.process_tick =
      ({ c with food_stock := c.food_stock - 5, queen_alive := false }, [Out.queenPerished]) := by
  have hw : wrapInt (c.food_stock - 5) = c.food_stock - 5 := by
    unfold wrapInt; omega
  have hle : c.food_stock - 5 ≤ 0 := by omega
  simp [Colony.process_tick, ha, hw, hle]

/-- While `5 * n` is below the food stock, `n` ticks lower it by `5 * n` and
change nothing else. -/
theorem process_ticks_alive (c : Colony) (n : Nat) (ha : c.queen_alive = true)
    (hi : IsInt c.food_stock) (hn : 5 * (n : Int) < c.food_stock) :
    c.process_ticks n = { c with food_stock := c.food_stock - 5 * (n : Int) } := by
  induction n generalizing c with
  | zero => simp [Colony.process_ticks]
  | succ n ih =>
      have hr := hi
      unfold IsInt INT_MIN INT_MAX at hr
      push_cast at hn
      rw [Colony.process_ticks, process_tick_alive_high c ha hi (by omega)]
      have hi1 : IsInt ({ c with food_stock := c.food_stock - 5 } : Colony).food_stock := by
        unfold IsInt INT_MIN INT_MAX; constructor <;> simp only <;> omega
      rw [ih { c with food_stock := c.food_stock - 5 } ha hi1 (by simp only; omega)]
      simp only [Nat.cast_add, Nat.cast_one, Colony.mk.injEq, true_and, and_true]
      ring

/-- Once `5 * n` has reached the food stock, the queen is dead and the food
stock rests at the value it had when she died. -/
theorem process_ticks_collapsed (c : Colony) (n : Nat) (ha : c.queen_alive = true)
    (h0 : 0 < c.food_stock) (hi : IsInt c.food_stock) (hn : ¬ 5 * (n : Int) < c.food_stock) :
    c.process_ticks n =
      { c with food_stock := c.food_stock - 5 * ceilDiv5 c.food_stock, queen_alive := false } := by
  induction n generalizing c with
  | zero => simp at hn; omega
  | succ n ih =>
      have hr := hi
      unfold IsInt INT_MIN INT_MAX at hr
      push_cast at hn
      rw [Colony.process_ticks]
      by_cases h5 : c.food_stock ≤ 5
      · rw [process_tick_alive_low c ha h0 h5, process_ticks_dead _ _ rfl]
        have hk : ceilDiv5 c.food_stock = 1 := by unfold ceilDiv5; omega
        rw [hk]
        simp
      · rw [process_tick_alive_high c ha hi (by omega)]
        have hi1 : IsInt ({ c with food_stock := c.food_stock - 5 } : Colony).food_stock := by
          unfold IsInt INT_MIN INT_MAX; constructor <;> simp only <;> omega
        rw [ih { c with food_stock := c.food_stock - 5 } ha (by simp only; omega) hi1
          (by simp only; omega)]
        have hk : ceilDiv5 (c.food_stock - 5) = ceilDiv5 c.food_stock - 1 := by
          unfold ceilDiv5; omega
        simp only [hk, Colony.mk.injEq, true_and, and_true]
        ring

/-- C15: for a colony with a living queen and food stock `f > 0`, after `n`
calls of `process_tick` the queen is alive if and only if `5 * n < f`, that is
if and only if `n` is below `f / 5` rounded up, so she dies exactly at that
tick; the food stock is `f - 5 * min(n, ceil(f / 5))`; once the queen is dead
the food stock lies in `(-5, 0]`; a fresh colony (food stock 100) still has its
queen after 19 ticks and has lost her, with food stock 0, after 20. -/
theorem C15_starvation_closed_form (c : Colony) (n : Nat) (type : String) (x y : Int)
    (ha : c.queen_alive = true) (h0 : 0 < c.food_stock) (hi : IsInt c.food_stock) :
    ((c.process_ticks n).queen_alive = true ↔ 5 * (n : Int) < c.food_stock) ∧
    ((c.process_ticks n).queen_alive = true ↔ (n : Int) < ceilDiv5 c.food_stock) ∧
    (c.process_ticks n).food_stock =
      c.food_stock - 5 * min (n : Int) (ceilDiv5 c.food_stock) ∧
    ((c.process_ticks n).queen_alive = false →
      -5 < (c.process_ticks n).food_stock ∧ (c.process_ticks n).food_stock ≤ 0) ∧
    ((Colony.new type x y).process_ticks 19).queen_alive = true ∧
    (Colony.new type x y).process_ticks 20 =
      { Colony.new type x y with food_stock := 0, queen_alive := false } := by
  have hceil : 5 * (n : Int) < c.food_stock ↔ (n : Int) < ceilDiv5 c.food_stock := by
    unfold ceilDiv5; omega
  have hfresh19 : ((Colony.new type x y).process_ticks 19).queen_alive = true := by
    rw [process_ticks_alive (Colony.new type x y) 19 rfl (show IsInt (100 : Int) by decide)
      (show 5 * ((19 : Nat) : Int) < (100 : Int) by decide)]
    rfl
  have hfresh20 : (Colony.new type x y).process_ticks 20 =
      { Colony.new type x y with food_stock := 0, queen_alive := false } := by
    rw [process_ticks_collapsed (Colony.new type x y) 20 rfl (show (0 : Int) < 100 by decide)
      (show IsInt (100 : Int) by decide)
      (show ¬ 5 * ((20 : Nat) : Int) < (100 : Int) by decide)]
    rfl
  by_cases hn : 5 * (n : Int) < c.food_stock
  · have hk : (n : Int) < ceilDiv5 c.food_stock := hceil.1 hn
    rw [process_ticks_alive c n ha hi hn]
    refine ⟨by simp [ha, hn], by simp [ha, hk], ?_, ?_, hfresh19, hfresh20⟩
    · simp only
      rw [min_eq_left (le_of_lt hk)]
    · intro hd
      simp [ha] at hd
  · have hk : ¬ (n : Int) < ceilDiv5 c.food_stock := fun h => hn (hceil.2 h)
    rw [process_ticks_collapsed c n ha h0 hi hn]
    refine ⟨by simp [hn], by simp [hk], ?_, ?_, hfresh19, hfresh20⟩
    · simp only
      rw [min_eq_right (not_lt.1 hk)]
    · intro _
      simp only
      unfold ceilDiv5
      omega

/-- Witness of C15: a colony fed to food stock 150 has lost its queen after
30 ticks, and after 20 ticks its food stock is `150 - 5 * min(20, 30)`; a
fresh colony has collapsed with food stock 0 after 20 ticks. -/
theorem C15_starvation_closed_form_witness :
    ((({ Colony.new "Aggressive" 0 0 with food_stock := 150 } : Colony).process_ticks
        30).queen_alive = true ↔ 5 * ((30 : Nat) : Int) < (150 : Int)) ∧
    (({ Colony.new "Aggressive" 0 0 with food_stock := 150 } : Colony).process_ticks
        20).food_stock = 150 - 5 * min ((20 : Nat) : Int) (ceilDiv5 150) ∧
    (Colony.new "Harvester" 10 20).process_ticks 20 =
      { Colony.new "Harvester" 10 20 with food_stock := 0, queen_alive := false } :=
  ⟨(C15_starvation_closed_form { Colony.new "Aggressive" 0 0 with food_stock := 150 } 30
      "Harvester" 10 20 rfl (by decide) (by decide)).1,
   (C15_starvation_closed_form { Colony.new "Aggressive" 0 0 with food_stock := 150 } 20
      "Harvester" 10 20 rfl (by decide) (by decide)).2.2.1,
   (C15_starvation_closed_form { Colony.new "Aggressive" 0 0 with food_stock := 150 } 30
      "Harvester" 10 20 rfl (by decide) (by decide)).2.2.2.2.2⟩

/-! ## Rounds against per-colony iteration -/

theorem process_ticks_succ_map (cs : List Colony) (n : Nat) :
    (cs.map (fun c => c.process_tick.1)).map (fun c => c.process_ticks n) =
      cs.map (fun c => c.process_ticks (n + 1)) := by
  rw [List.map_map]
  apply List.map_congr_left
  intro c _
  simp [Colony.process_ticks]

/-- The registry after `n` rounds, whatever the loop counter they start at. -/
theorem tick_rounds_colony_list (n : Nat) (i : Int) (m : Meadow) :
    (Meadow.tick_rounds n i m).1.colony_list =
      m.colony_list.map (fun c => c.process_ticks n) := by
  induction n generalizing i m with
  | zero => simp [Meadow.tick_rounds, Colony.process_ticks]
  | succ n ih =>
      rw [Meadow.tick_rounds]
      simp only [ih, tick_colonies_eq_map]
      exact process_ticks_succ_map m.colony_list n

theorem meadow_eq_of_colony_list {a b : Meadow} (h : a.colony_list = b.colony_list) : a = b := by
  cases a; cases b; simp only at h; rw [h]

theorem execute_ticks_eq_per_colony (m : Meadow) (n : Nat) :
    (m.execute_ticks (n : Int)).1 = m.ticks_per_colony n := by
  apply meadow_eq_of_colony_list
  simp only [Meadow.execute_ticks, Int.toNat_ofNat, tick_rounds_colony_list,
    Meadow.ticks_per_colony]

/-- C16: for every registry and every `n >= 0`, the registry after
`execute_ticks(n)` equals the registry in which each colony is replaced, on
its own, by the result of `n` calls of `process_tick` on it: same length, same
order, and the result at an index depends only on the colony at that index,
not on the colonies before or after it. -/
theorem C16_round_robin_equals_per_colony (m : Meadow) (n : Nat) (pre post : List Colony)
    (c : Colony) :
    (m.execute_ticks (n : Int)).1 = m.ticks_per_colony n ∧
    (m.execute_ticks (n : Int)).1.colony_list =
      m.colony_list.map (fun c => c.process_ticks n) ∧
    (m.execute_ticks (n : Int)).1.colony_list.length = m.colony_list.length ∧
    (∀ i : Nat, (m.execute_ticks (n : Int)).1.colony_list[i]? =
      (m.colony_list[i]?).map (fun c => c.process_ticks n)) ∧
    ((Meadow.mk (pre ++ c :: post)).execute_ticks (n : Int)).1.colony_list[pre.length]? =
      some (c.process_ticks n) := by
  have hl : ∀ M : Meadow, (M.execute_ticks (n : Int)).1.colony_list =
      M.colony_list.map (fun c => c.process_ticks n) := by
    intro M
    rw [execute_ticks_eq_per_colony]; rfl
  refine ⟨execute_ticks_eq_per_colony m n, hl m, ?_, ?_, ?_⟩
  · rw [hl, List.length_map]
  · intro i
    rw [hl, List.getElem?_map]
  · rw [hl, List.getElem?_map]
    show Option.map _ ((pre ++ c :: post)[pre.length]?) = _
    rw [List.getElem?_append_right (le_refl _)]
    simp

/-! ## Composition of tick advancement -/

theorem execute_ticks_all_dead (m : Meadow) (n : Int)
    (hd : ∀ c ∈ m.colony_list, c.queen_alive = false) : (m.execute_ticks n).1 = m := by
  apply meadow_eq_of_colony_list
  simp only [Meadow.execute_ticks, tick_rounds_colony_list]
  conv_rhs => rw [← List.map_id m.colony_list]
  apply List.map_congr_left
  intro c hc
  simp [process_ticks_dead c _ (hd c hc)]

/-- C19: for every registry and all `a, b >= 0`, `execute_ticks(a)` followed
by `execute_ticks(b)` leaves the same registry as one `execute_ticks(a + b)`;
`execute_ticks(0)` changes nothing and writes nothing; and on a registry all
of whose colonies have a dead queen `execute_ticks(n)` leaves the registry
unchanged for every `n`. -/
theorem C19_ticks_compose (m : Meadow) (a b : Nat) :
    ((m.execute_ticks (a : Int)).1.execute_ticks (b : Int)).1 =
      (m.execute_ticks ((a : Int) + (b : Int))).1 ∧
    m.execute_ticks 0 = (m, []) ∧
    ((∀ c ∈ m.colony_list, c.queen_alive = false) →
      ∀ n : Int, (m.execute_ticks n).1 = m) := by
  refine ⟨?_, rfl, fun hd n => execute_ticks_all_dead m n hd⟩
  apply meadow_eq_of_colony_list
  have hab : ((a : Int) + (b : Int)).toNat = a + b := by omega
  simp only [Meadow.execute_ticks, Int.toNat_ofNat, hab, tick_rounds_colony_list, List.map_map]
  apply List.map_congr_left
  intro c _
  simp [process_ticks_add]

/-- Witness of C19: a registry of one collapsed colony is unchanged by
`execute_ticks(7)`. -/
theorem C19_ticks_compose_witness :
    ((Meadow.mk
        [{ Colony.new "Aggressive" 0 0 with food_stock := 0, queen_alive := false }]).execute_ticks
          7).1 =
      Meadow.mk [{ Colony.new "Aggressive" 0 0 with food_stock := 0, queen_alive := false }] :=
  (C19_ticks_compose
    (Meadow.mk [{ Colony.new "Aggressive" 0 0 with food_stock := 0, queen_alive := false }])
    0 0).2.2 (by decide) 7

/-! ## The invariant of reachable registries -/

theorem process_tick_aliveFed (c : Colony) (h : c.AliveFed) : c.process_tick.1.AliveFed := by
  by_cases ha : c.queen_alive = true
  · obtain ⟨h0, hmax⟩ := h ha
    have hi : IsInt c.food_stock := by
      unfold IsInt INT_MIN; unfold INT_MAX at *; omega
    by_cases h5 : c.food_stock ≤ 5
    · rw [process_tick_alive_low c ha h0 h5]
      intro hq
      simp at hq
    · rw [process_tick_alive_high c ha hi (by omega)]
      intro _
      unfold INT_MAX at *
      simp only
      omega
  · have hd : c.queen_alive = false := by simpa using ha
    rw [process_tick_dead c hd]
    exact h

theorem process_ticks_aliveFed (c : Colony) (n : Nat) (h : c.AliveFed) :
    (c.process_ticks n).AliveFed := by
  induction n generalizing c with
  | zero => exact h
  | succ n ih =>
      rw [Colony.process_ticks]
      exact ih _ (process_tick_aliveFed c h)

theorem receive_resources_aliveFed (c : Colony) (kind : String) (q : Int) (h : c.AliveFed)
    (hq : 0 ≤ q)
    (hr : c.queen_alive = true → kind = "food" → c.food_stock + q ≤ INT_MAX) :
    (c.receive_resources kind q).1.AliveFed := by
  by_cases hk : kind = "food"
  · subst hk
    rw [receive_resources_food]
    intro ha
    have ha1 : c.queen_alive = true := ha
    obtain ⟨h0, _⟩ := h ha1
    have hmax := hr ha1 rfl
    have hw : wrapInt (c.food_stock + q) = c.food_stock + q := by
      apply wrapInt_of_isInt
      unfold IsInt INT_MIN; unfold INT_MAX at *; omega
    simp only [hw]
    exact ⟨by omega, hmax⟩
  · rw [receive_resources_other c kind q hk]
    exact h

theorem apply_aliveFed (m : Meadow) (op : EngineOp)
    (hm : ∀ c ∈ m.colony_list, c.AliveFed) (hop : m.admits op = true) :
    ∀ c ∈ (m.apply op).1.colony_list, c.AliveFed := by
  cases op with
  | create_colony type x y =>
      intro c hc
      simp only [Meadow.apply, Meadow.spawn_colony, List.mem_append, List.mem_singleton] at hc
      rcases hc with hc | hc
      · exact hm c hc
      · subst hc
        intro _
        exact ⟨show (0 : Int) < 100 by decide, show (100 : Int) ≤ INT_MAX by decide⟩
  | allocate_resources id kind amount =>
      intro c hc
      simp only [Meadow.apply, Meadow.allocate_resources] at hc
      by_cases hg : id ≥ 0 ∧ toSizeT id < m.colony_list.length
      · rw [dif_pos hg] at hc
        rcases List.mem_or_eq_of_mem_set hc with hc | hc
        · exact hm c hc
        · subst hc
          have hget : m.colony_list[toSizeT id]? =
              some (m.colony_list.get ⟨toSizeT id, hg.2⟩) := by
            rw [List.get_eq_getElem]
            exact List.getElem?_eq_getElem hg.2
          have hneg : ¬ id < 0 := by omega
          simp only [Meadow.admits, hget, Bool.and_eq_true, Bool.or_eq_true, decide_eq_true_eq,
            Bool.not_eq_true', hneg, false_or] at hop
          apply receive_resources_aliveFed _ kind amount
            (hm _ (List.get_mem _ _ hg.2)) hop.1
          intro ha hk
          rcases hop.2 with (hd | hne) | hle
          · rw [ha] at hd; exact absurd hd (by decide)
          · exact absurd hk hne
          · exact hle
      · rw [dif_neg hg] at hc
        exact hm c hc
  | execute_ticks n =>
      intro c hc
      simp only [Meadow.apply, Meadow.execute_ticks, tick_rounds_colony_list,
        List.mem_map] at hc
      obtain ⟨c0, hc0, rfl⟩ := hc
      exact process_ticks_aliveFed c0 _ (hm c0 hc0)
  | display_summary id =>
      intro c hc
      simp only [Meadow.apply, display_summary_state] at hc
      exact hm c hc

theorem run_aliveFed (m : Meadow) (ops : List EngineOp)
    (hm : ∀ c ∈ m.colony_list, c.AliveFed) (hops : m.admitsAll ops = true) :
    ∀ c ∈ (m.run ops).1.colony_list, c.AliveFed := by
  induction ops generalizing m with
  | nil => exact hm
  | cons op ops ih =>
      simp only [Meadow.admitsAll, Bool.and_eq_true] at hops
      exact ih (m.apply op).1 (apply_aliveFed m op hm hops.1) hops.2

/-- C17, as stated, fails: `create_colony("Aggressive", 0, 0)` followed by
`allocate_resources(0, "food", 2147483647)`, a non-negative amount, takes the
food stock 100 past `INT_MAX`; the registry reached holds a colony whose queen
is alive and whose food stock is not positive. -/
theorem C17_reachable_invariant_counterexample :
    (0 : Int) ≤ 2147483647 ∧
    (Meadow.run Meadow.empty
        [EngineOp.create_colony "Aggressive" 0 0,
         EngineOp.allocate_resources 0 "food" 2147483647]).1.colony_list =
      [{ Colony.new "Aggressive" 0 0 with food_stock := -2147483549 }] ∧
    ({ Colony.new "Aggressive" 0 0 with food_stock := -2147483549 } : Colony).queen_alive
      = true ∧
    ¬ (0 < ({ Colony.new "Aggressive" 0 0 with food_stock := -2147483549 } :
        Colony).food_stock) := by
  decide

/-- C17 (amended): in every registry reached from the empty registry by
`create_colony`, `execute_ticks`, `display_summary` and `allocate_resources`
calls whose amounts are all `>= 0` and never take the food stock of a colony
with a living queen above `INT_MAX`, every colony whose queen is alive has a
positive food stock.  Non-negativity is needed: `allocate_resources(0, "food",
-100)` on a fresh colony leaves the queen alive with food stock 0. -/
theorem C17_reachable_invariant (ops : List EngineOp)
    (h : Meadow.empty.admitsAll ops = true) :
    (∀ c ∈ (Meadow.empty.run ops).1.colony_list, c.queen_alive = true → 0 < c.food_stock) ∧
    (∃ c : Colony,
      (Meadow.run Meadow.empty
        [EngineOp.create_colony "Aggressive" 0 0,
         EngineOp.allocate_resources 0 "food" (-100)]).1.colony_list = [c] ∧
      c.queen_alive = true ∧ c.food_stock ≤ 0) := by
  refine ⟨?_, ⟨{ Colony.new "Aggressive" 0 0 with food_stock := 0 }, by decide, rfl,
    by decide⟩⟩
  intro c hc ha
  have hm : ∀ c ∈ Meadow.empty.colony_list, c.AliveFed := by
    intro c hc
    simp [Meadow.empty] at hc
  exact (run_aliveFed Meadow.empty ops hm h c hc ha).1

/-- Witness of C17 (amended): two colonies created, the first fed 50, three
rounds, the second given an unknown kind; the run feeds within range and the
first colony, whose queen is alive, ends with the positive food stock 135. -/
theorem C17_reachable_invariant_witness :
    Meadow.empty.admitsAll
        [EngineOp.create_colony "Aggressive" 0 0,
         EngineOp.allocate_resources 0 "food" 50,
         EngineOp.execute_ticks 3,
         EngineOp.create_colony "Harvester" 10 20,
         EngineOp.allocate_resources 1 "water" 3] = true ∧
    0 < ({ Colony.new "Aggressive" 0 0 with food_stock := 135 } : Colony).food_stock :=
  ⟨by decide,
   (C17_reachable_invariant
      [EngineOp.create_colony "Aggressive" 0 0,
       EngineOp.allocate_resources 0 "food" 50,
       EngineOp.execute_ticks 3,
       EngineOp.create_colony "Harvester" 10 20,
       EngineOp.allocate_resources 1 "water" 3] (by decide)).1
      { Colony.new "Aggressive" 0 0 with food_stock := 135 } (by decide) rfl⟩

/-! ## Frame of resource allocation -/

theorem receive_resources_frame (c : Colony) (kind : String) (q : Int) :
    (c.receive_resources kind q).1 =
      { c with food_stock := (c.receive_resources kind q).1.food_stock } := by
  unfold Colony.receive_resources
  split <;> rfl

/-- C18: for every registry, id, kind and amount, `allocate_resources(id, kind,
amount)` leaves the number and order of the colonies unchanged: the colony
found at an index afterwards is the one that was there before with at most its
food stock changed (type, position, rooms, insects and `queen_alive` are the
same, so feeding neither kills nor revives a queen, whatever the sign of the
amount), and at an index other than `id` it is unchanged altogether. -/
theorem C18_allocate_resources_frame (m : Meadow) (colony_id : Int) (kind : String)
    (quantity : Int) (h : IsInt colony_id) :
    (m.allocate_resources colony_id kind quantity).1.colony_list.length =
      m.colony_list.length ∧
    (∀ (i : Nat) (c : Colony), m.colony_list[i]? = some c →
      ∃ c' : Colony,
        (m.allocate_resources colony_id kind quantity).1.colony_list[i]? = some c' ∧
        c' = { c with food_stock := c'.food_stock } ∧
        c'.queen_alive = c.queen_alive ∧
        ((i : Int) ≠ colony_id → c' = c)) := by
  unfold Meadow.allocate_resources
  by_cases hg : colony_id ≥ 0 ∧ toSizeT colony_id < m.colony_list.length
  · rw [dif_pos hg]
    dsimp only
    refine ⟨List.length_set _ _ _, ?_⟩
    intro i c hc
    rw [List.getElem?_set]
    by_cases hi : toSizeT colony_id = i
    · rw [if_pos hi, if_pos hg.2]
      have hget : m.colony_list.get ⟨toSizeT colony_id, hg.2⟩ = c := by
        rcases List.getElem?_eq_some.1 hc with ⟨hl, he⟩
        subst hi
        simpa using he
      rw [hget]
      refine ⟨_, rfl, receive_resources_frame c kind quantity,
        receive_resources_queen c kind quantity, ?_⟩
      intro hne
      have hs : toSizeT colony_id = colony_id.toNat := toSizeT_of_nonneg hg.1 h
      omega
    · rw [if_neg hi]
      exact ⟨c, hc, rfl, rfl, fun _ => rfl⟩
  · rw [dif_neg hg]
    exact ⟨rfl, fun i c hc => ⟨c, hc, rfl, rfl, fun _ => rfl⟩⟩

/-- Witness of C18: taking 500 units of food from colony 0 of two leaves
colony 1 as it is. -/
theorem C18_allocate_resources_frame_witness :
    ∃ c' : Colony,
      ((Meadow.mk [Colony.new "Aggressive" 0 0, Colony.new "Harvester" 10 20]).allocate_resources
        0 "food" (-500)).1.colony_list[1]? = some c' ∧
      c' = { Colony.new "Harvester" 10 20 with food_stock := c'.food_stock } ∧
      c'.queen_alive = (Colony.new "Harvester" 10 20).queen_alive ∧
      (((1 : Nat) : Int) ≠ 0 → c' = Colony.new "Harvester" 10 20) :=
  (C18_allocate_resources_frame
    (Meadow.mk [Colony.new "Aggressive" 0 0, Colony.new "Harvester" 10 20]) 0 "food" (-500)
    (by decide)).2 1 (Colony.new "Harvester" 10 20) rfl

end ColonySim
